import Mathlib

/-!
# delorean: `cmd/osdAddonRelease.go`

A shallow embedding of the release command of `cmd/osdAddonRelease.go`: the
configuration lookup (`findAddon`, `findChannel`), the pre-release gate and the
step order of `run`, the manifest transform `updateTheCSVManifest` and the
image-set promotion (`getAddonImageSet`, `copyAddonImageSet`).

Go strings are Lean strings.  A Go function that can return an error or stop
with a runtime panic returns `Except Failure _`; the two runtime panics the
file can raise (dereferencing a nil pointer, indexing a slice out of range)
are kept apart from the error values the code returns.  Calls into git, GitLab,
the file system and the YAML codec are external: their outcomes are inputs of
the model (`World`), and the calls that are made are recorded as a list of
`Effect`s.
-/

namespace Delorean

/-! ## Failures -/

/-- How a Go call can fail: a runtime panic (nil dereference, index out of
range) or a returned `error` value carrying its message. -/
inductive Failure where
  | nilPointerDereference
  | indexOutOfRange
  | error (msg : String)
deriving DecidableEq, Repr

/-- True when a call ended in a runtime panic. -/
def isPanic {α : Type} : Except Failure α → Bool
  | .error .nilPointerDereference => true
  | .error .indexOutOfRange => true
  | _ => false

/-- True when a call returned a non-nil `error` value. -/
def isReturnedError {α : Type} : Except Failure α → Bool
  | .error (.error _) => true
  | _ => false

/-- True when a call returned normally with a nil error. -/
def isOk {α : Type} : Except Failure α → Bool
  | .ok _ => true
  | _ => false

/-- Equality of outcomes is decidable when equality of values is. -/
instance decEqOutcome {ε α : Type} [DecidableEq ε] [DecidableEq α] : DecidableEq (Except ε α)
  | .ok a, .ok b =>
    if h : a = b then isTrue (by rw [h]) else isFalse (fun h2 => h (Except.ok.inj h2))
  | .error a, .error b =>
    if h : a = b then isTrue (by rw [h]) else isFalse (fun h2 => h (Except.error.inj h2))
  | .ok _, .error _ => isFalse (fun h => Except.noConfusion h)
  | .error _, .ok _ => isFalse (fun h => Except.noConfusion h)

/-! ## Data model (lines 48-107) -/

/-- The `addonImageSet` struct. -/
structure addonImageSet where
  IndexImage : String
  Name : String
  RelatedImages : List String
deriving DecidableEq, Repr

/-- The `metadataAnnotations` struct: a Go `map[string]string`, read as the
partial function from keys to values (a nil map has no key). -/
structure metadataAnnotations where
  Annotations : String → Option String

/-- The `releaseChannel` struct. -/
structure releaseChannel where
  Name : String
  Directory : String
  Environment : String
  AllowPreRelease : Bool
deriving DecidableEq, Repr

/-- The `addonBundleConfig` struct. -/
structure addonBundleConfig where
  Repo : String
  Path : String
deriving DecidableEq, Repr

/-- The `fieldPath` struct. -/
structure fieldPath where
  FieldPath : String
deriving DecidableEq, Repr

/-- The `fieldRef` struct. -/
structure fieldRef where
  FieldRef : fieldPath
deriving DecidableEq, Repr

/-- The `deploymentContainerEnvVar` struct. -/
structure deploymentContainerEnvVar where
  Name : String
  Value : String
  ValueFrom : fieldRef
deriving DecidableEq, Repr

/-- The `deploymentContainer` struct. -/
structure deploymentContainer where
  Name : String
  EnvVars : List deploymentContainerEnvVar
deriving DecidableEq, Repr

/-- The `deployment` struct. -/
structure deployment where
  Name : String
  Container : deploymentContainer
deriving DecidableEq, Repr

/-- The `override` struct. -/
structure override where
  Deployment : deployment
deriving DecidableEq, Repr

/-- The `addonConfig` struct; `Override` is a pointer, nil when absent. -/
structure addonConfig where
  Name : String
  Bundle : addonBundleConfig
  Channels : List releaseChannel
  Override : Option override
deriving DecidableEq, Repr

/-- The `addons` struct. -/
structure addons where
  Addons : List addonConfig
deriving DecidableEq, Repr

/-- The `osdAddonReleaseFlags` struct. -/
structure osdAddonReleaseFlags where
  version : String
  channel : String
  mergeRequestDescription : String
  managedTenantsOrigin : String
  managedTenantsFork : String
  addonName : String
  addonsConfig : String
deriving DecidableEq, Repr

/-! ## Kubernetes and OLM objects

The fields of `corev1.EnvVar`, `corev1.Container`,
`olmapiv1alpha1.StrategyDeploymentSpec`, `olmapiv1alpha1.InstallMode` and
`olmapiv1alpha1.ClusterServiceVersion` that the command reads or writes.
`Image` stands for the container fields the command never touches. -/

/-- A `corev1.EnvVarSource` holding a field reference: `FieldRef.FieldPath`. -/
structure EnvVarSource where
  FieldPath : String
deriving DecidableEq, Repr

/-- A `corev1.EnvVar`: `ValueFrom` is a pointer, nil for a literal. -/
structure EnvVar where
  Name : String
  Value : String
  ValueFrom : Option EnvVarSource
deriving DecidableEq, Repr

/-- A `corev1.Container`. -/
structure Container where
  Name : String
  Image : String
  Env : List EnvVar
deriving DecidableEq, Repr

/-- An `olmapiv1alpha1.StrategyDeploymentSpec`; `Containers` is
`Spec.Template.Spec.Containers`. -/
structure StrategyDeploymentSpec where
  Name : String
  Containers : List Container
deriving DecidableEq, Repr

/-- An `olmapiv1alpha1.InstallMode`; `ModeType` is its `Type` field. -/
structure InstallMode where
  ModeType : String
  Supported : Bool
deriving DecidableEq, Repr

/-- The constant `olmapiv1alpha1.InstallModeTypeSingleNamespace`. -/
def InstallModeTypeSingleNamespace : String := "SingleNamespace"

/-- An `olmapiv1alpha1.ClusterServiceVersion`: `Replaces` is `Spec.Replaces`,
`InstallModes` is `Spec.InstallModes`, `DeploymentSpecs` is
`Spec.InstallStrategy.StrategySpec.DeploymentSpecs`. -/
structure ClusterServiceVersion where
  Name : String
  Replaces : String
  InstallModes : List InstallMode
  DeploymentSpecs : List StrategyDeploymentSpec
deriving DecidableEq, Repr

/-! ## Versions -/

/-- Modelled from the spec: `utils.RHMIVersion` is not among the sources.  A
version is a semantic version (`base`) plus an optional pre-release suffix
(`build`, empty when absent). -/
structure RHMIVersion where
  base : String
  build : String
deriving DecidableEq, Repr

/-- Modelled from the spec: `IsPreRelease` of the missing `utils.RHMIVersion`:
the version carries a pre-release suffix. -/
def RHMIVersion.IsPreRelease (v : RHMIVersion) : Bool :=
  v.build != ""

/-- Modelled from the spec: `Base` of the missing `utils.RHMIVersion`, the form
without the pre-release suffix. -/
def RHMIVersion.Base (v : RHMIVersion) : String :=
  v.base

/-- Modelled from the spec: `String` of the missing `utils.RHMIVersion`, the
semantic version followed by `-` and the pre-release suffix when there is one. -/
def RHMIVersion.String (v : RHMIVersion) : String :=
  if v.build = "" then v.base else v.base ++ "-" ++ v.build

/-- The fields of `osdAddonReleaseCmd` that the modelled methods read.
`currentChannel` is a pointer that `run` tests for nil. -/
structure osdAddonReleaseCmd where
  flags : osdAddonReleaseFlags
  version : RHMIVersion
  addonConfig : addonConfig
  currentChannel : Option releaseChannel
deriving DecidableEq, Repr

/-- The method `bundlesDirectory` (lines 111-113). -/
def releaseChannel.bundlesDirectory (c : releaseChannel) : String :=
  "addons/" ++ c.Directory ++ "/main"

/-- The method `stageAddonFile` (lines 139-141). -/
def releaseChannel.stageAddonFile (c : releaseChannel) : String :=
  "addons/" ++ c.Directory ++ "/metadata/stage/addon.yaml"

/-- The method `stageAddonImageSetDirectory` (lines 143-145). -/
def releaseChannel.stageAddonImageSetDirectory (c : releaseChannel) : String :=
  "addons/" ++ c.Directory ++ "/addonimagesets/stage"

/-! ## Configuration lookup (lines 228-270) -/

/-- The loop of `findAddon` (lines 230-236): the first entry whose name is
`addonName`. -/
def findAddonLoop (addonName : String) : List addonConfig → Option addonConfig
  | [] => none
  | a :: rest => if a.Name = addonName then some a else findAddonLoop addonName rest

/-- The function `findAddon` (lines 228-238): a pointer to a copy of the first
matching entry, nil when there is none. -/
def findAddon (config : addons) (addonName : String) : Option addonConfig :=
  findAddonLoop addonName config.Addons

/-- The loop of `findChannel` (lines 242-248). -/
def findChannelLoop (channelName : String) : List releaseChannel → Option releaseChannel
  | [] => none
  | c :: rest => if c.Name = channelName then some c else findChannelLoop channelName rest

/-- The function `findChannel` (lines 240-250). -/
def findChannel (addon : addonConfig) (channelName : String) : Option releaseChannel :=
  findChannelLoop channelName addon.Channels

/-- Lines 262-270 of `newOSDAddonReleaseCmd`: `findAddon`, then `findChannel`
on its result, each nil answer turned into an error.  The catalog is only
read; the result holds the two copies. -/
def resolve (config : addons) (flags : osdAddonReleaseFlags) :
    Except Failure (addonConfig × releaseChannel) :=
  match findAddon config flags.addonName with
  | none =>
    .error (.error ("can not find configuration for addon " ++ flags.addonName ++
      " in config file " ++ flags.addonsConfig))
  | some currentAddon =>
    match findChannel currentAddon flags.channel with
    | none =>
      .error (.error ("can not find channel " ++ flags.channel ++ " for addon " ++
        flags.addonName ++ " in config file " ++ flags.addonsConfig))
    | some currentChannel => .ok (currentAddon, currentChannel)

/-! ## `strings.Split` -/

/-- The first occurrence of `sep` in a string: what stands before it and what
stands after it (`strings.Index` followed by the two slices of `genSplit`). -/
def stringsCut (sep : List Char) : List Char → Option (List Char × List Char)
  | [] => none
  | c :: cs =>
    if sep.isPrefixOf (c :: cs) then some ([], (c :: cs).drop sep.length)
    else (stringsCut sep cs).map (fun r => (c :: r.1, r.2))

/-- The loop of Go's `genSplit` for a non-empty separator: cut at the leftmost
occurrence and go on with what follows it; `n` bounds the number of cuts. -/
def splitPieces (sep : List Char) : Nat → List Char → List (List Char)
  | 0, s => [s]
  | n + 1, s =>
    match stringsCut sep s with
    | none => [s]
    | some (b, a) => b :: splitPieces sep n a

/-- Go's `strings.Split(s, sep)`: the substrings between the successive
non-overlapping occurrences of `sep`, leftmost first; an empty separator
splits after each character. -/
def stringsSplit (s sep : String) : List String :=
  if sep.data = [] then s.data.map (fun c => String.mk [c])
  else (splitPieces sep.data s.length s.data).map String.mk

/-- The index expression `pieces[1]` on a Go slice: a runtime panic when the
slice has fewer than two elements. -/
def indexOne : List String → Except Failure String
  | _ :: x :: _ => .ok x
  | _ => .error .indexOutOfRange

/-! ## The helpers of `pkg/utils` used by the manifest transform -/

/-- The first element satisfying `p`, with its index. -/
def findFirst {α : Type} (p : α → Bool) : List α → Option (Nat × α)
  | [] => none
  | x :: xs => if p x then some (0, x) else (findFirst p xs).map (fun r => (r.1 + 1, r.2))

/-- Modelled from the spec: `utils.FindDeploymentByName` is not among the
sources.  It locates the named deployment by exact name match in the ordered
list, first match; the answer is the index and a pointer, `none` standing for
the nil pointer returned when no deployment has the name (the caller never
uses the index that comes with a nil pointer). -/
def FindDeploymentByName (deployments : List StrategyDeploymentSpec) (name : String) :
    Option (Nat × StrategyDeploymentSpec) :=
  findFirst (fun d => d.Name == name) deployments

/-- Modelled from the spec: `utils.FindContainerByName` is not among the
sources.  It locates the named container by exact name match in the ordered
list, first match; `none` stands for the nil pointer. -/
def FindContainerByName (containers : List Container) (containerName : String) :
    Option (Nat × Container) :=
  findFirst (fun c => c.Name == containerName) containers

/-- Modelled from the spec: `utils.FindInstallMode` is not among the sources.
It locates the install-mode entry of the given type in the manifest's
install-mode list, first match; `none` stands for the nil pointer. -/
def FindInstallMode (installModes : List InstallMode) (typeName : String) :
    Option (Nat × InstallMode) :=
  findFirst (fun m => m.ModeType == typeName) installModes

/-- Modelled from the spec: `utils.AddOrUpdateEnvVar` is not among the sources.
The spec has the container's env list rebuilt from the override's env-var
list, one entry for each override var, in the override's order: called on the
list under construction, it adds a literal entry with the given name and value
at the end. -/
def AddOrUpdateEnvVar (envVars : List EnvVar) (envName envVal : String) : List EnvVar :=
  envVars ++ [{ Name := envName, Value := envVal, ValueFrom := none }]

/-- Modelled from the spec: `utils.AddOrUpdateEnvVarWithSource` is not among
the sources.  It is `AddOrUpdateEnvVar` for a field-reference value: the entry
it adds at the end is sourced from the pod field path `envSourcePath`. -/
def AddOrUpdateEnvVarWithSource (envVars : List EnvVar) (envName envVal envSourcePath : String) :
    List EnvVar :=
  envVars ++
    [{ Name := envName, Value := envVal, ValueFrom := some { FieldPath := envSourcePath } }]

/-! ## The manifest transform `updateTheCSVManifest` (lines 577-650) -/

/-- The body of the loop of lines 603-609: one override env var is added to the
env list under construction, as a field reference when its name is
`WATCH_NAMESPACE` or `POD_NAME` and as a literal otherwise. -/
def overrideEnvStep (env : List EnvVar) (envVar : deploymentContainerEnvVar) : List EnvVar :=
  if envVar.Name = "WATCH_NAMESPACE" ∨ envVar.Name = "POD_NAME" then
    AddOrUpdateEnvVarWithSource env envVar.Name envVar.Value envVar.ValueFrom.FieldRef.FieldPath
  else
    AddOrUpdateEnvVar env envVar.Name envVar.Value

/-- Lines 602-609: the env list is reset to nil and rebuilt from the override's
env vars, in their order. -/
def overrideEnv (envVars : List deploymentContainerEnvVar) : List EnvVar :=
  envVars.foldl overrideEnvStep []

/-- Lines 597-613, the override step.  Without an override, or without a
deployment of the override's name, the manifest is left as it is.  With the
deployment found, line 611 dereferences the container pointer whether or not
`FindContainerByName` found a container: a nil pointer is a runtime panic.
With both found, the container with its rebuilt env list is stored back at its
index in the deployment's container slice. -/
def applyOverride (config : addonConfig) (csv : ClusterServiceVersion) :
    Except Failure ClusterServiceVersion :=
  match config.Override with
  | none => .ok csv
  | some ov =>
    match FindDeploymentByName csv.DeploymentSpecs ov.Deployment.Name with
    | none => .ok csv
    | some (di, dep) =>
      match FindContainerByName dep.Containers ov.Deployment.Container.Name with
      | none => .error .nilPointerDereference
      | some (i, container) =>
        let container := { container with Env := overrideEnv ov.Deployment.Container.EnvVars }
        .ok { csv with DeploymentSpecs :=
                csv.DeploymentSpecs.set di { dep with Containers := dep.Containers.set i container } }

/-- The expression `strings.Split(s, ".v")[1]` of lines 616 and 619. -/
def versionAfterMarker (s : String) : Except Failure String :=
  indexOne (stringsSplit s ".v")

/-- Lines 616-620: the manifest's name and its replaces value are rebuilt as
`<addonName>-internal.v<piece>`, the piece being element 1 of the split of the
old value at `.v`. -/
def rewriteIdentity (addonName : String) (csv : ClusterServiceVersion) :
    Except Failure ClusterServiceVersion :=
  match versionAfterMarker csv.Name with
  | .error f => .error f
  | .ok nameVersion =>
    let csv := { csv with Name := addonName ++ "-internal.v" ++ nameVersion }
    match versionAfterMarker csv.Replaces with
    | .error f => .error f
    | .ok replacesVersion =>
      .ok { csv with Replaces := addonName ++ "-internal.v" ++ replacesVersion }

/-- The assignment `m[key] = value` on a Go map. -/
def mapSet (m : String → Option String) (key value : String) : String → Option String :=
  fun k => if k = key then some value else m k

/-- The slice `annotationsToBeUpdated` of line 622. -/
def annotationsToBeUpdated : List String :=
  ["operators.operatorframework.io.bundle.package.v1",
   "operators.operatorframework.io.bundle.channels.v1",
   "operators.operatorframework.io.bundle.channel.default.v1"]

/-- The body of the loop of lines 624-631 for one key: the two tests, one after
the other, each on the map as it then is. -/
def rewriteAnnotationStep (m : String → Option String) (key : String) : String → Option String :=
  let m1 := if m key = some "managed-api-service" then mapSet m key "managed-api-service-internal" else m
  if m1 key = some "stable" then mapSet m1 key "edge" else m1

/-- Lines 622-631: the loop over the three bundle annotation keys. -/
def rewriteAnnotations (a : metadataAnnotations) : metadataAnnotations :=
  { Annotations := annotationsToBeUpdated.foldl rewriteAnnotationStep a.Annotations }

/-- Lines 635-639, the install-mode step.  `FindInstallMode` is asked for the
`SingleNamespace` entry; line 639 dereferences its pointer whether or not it
is nil, a runtime panic when no entry was found; otherwise the entry, with
`Supported` set, is stored back at its index. -/
def setSingleNamespace (csv : ClusterServiceVersion) : Except Failure ClusterServiceVersion :=
  match FindInstallMode csv.InstallModes InstallModeTypeSingleNamespace with
  | none => .error .nilPointerDereference
  | some (mi, m) =>
    .ok { csv with InstallModes := csv.InstallModes.set mi { m with Supported := true } }

/-- What `updateTheCSVManifest` hands to the YAML writer and returns: the
relative path of the manifest, the manifest and the annotations. -/
structure ManifestUpdate where
  relative : String
  csv : ClusterServiceVersion
  annotations : metadataAnnotations

/-- The method `updateTheCSVManifest` (lines 577-650) between the loading of
the two YAML files and their writing back, which are external: from the loaded
manifest and annotations to the objects handed to the writer.  The steps run
in the order of the source: override (597-613), edge identity and annotation
rewrite (615-632), install mode (635-639).  `currentChannel` is dereferenced on
line 578. -/
def updateTheCSVManifest (c : osdAddonReleaseCmd) (csv : ClusterServiceVersion)
    (annotations : metadataAnnotations) : Except Failure ManifestUpdate :=
  match c.currentChannel with
  | none => .error .nilPointerDereference
  | some currentChannel =>
    let relative := currentChannel.bundlesDirectory ++ "/" ++ c.version.Base ++ "/manifests/" ++
      c.addonConfig.Name ++ ".clusterserviceversion.yaml"
    match applyOverride c.addonConfig csv with
    | .error f => .error f
    | .ok csv1 =>
      if currentChannel.Name = "edge" ∧ c.addonConfig.Name = "managed-api-service" then
        match rewriteIdentity c.addonConfig.Name csv1 with
        | .error f => .error f
        | .ok csv2 =>
          match setSingleNamespace csv2 with
          | .error f => .error f
          | .ok csv3 =>
            .ok { relative := relative, csv := csv3, annotations := rewriteAnnotations annotations }
      else
        match setSingleNamespace csv1 with
        | .error f => .error f
        | .ok csv3 => .ok { relative := relative, csv := csv3, annotations := annotations }

/-! ## External calls -/

/-- The calls of `run` and of the methods it uses that change the clone, the
fork or GitLab, and the reading of the working-tree status, each with the
arguments the command passes. -/
inductive Effect where
  | checkoutNewBranch (branch : String)
  | copyDirectory (destination : String)
  | removeDockerfile
  | removeTests
  | addGlob (pattern : String)
  | writeManifest (relative : String)
  | writeAnnotations
  | writeImageSet (relative : String) (bytes : String)
  | add (file : String)
  | commit (message : String)
  | status
  | push (remote : String) (refSpec : String)
  | createMergeRequest (title sourceBranch targetBranch : String)
  | checkoutMain
deriving DecidableEq, Repr

/-- The answers `os.Stat` can give for the `tests` directory (lines 504-518). -/
inductive StatResult where
  | found
  | notExist
  | failed (err : String)
deriving DecidableEq, Repr

/-- The outcomes of the external calls one execution meets, in the order of
the source: an `Except String _` is a call that returns a Go error or a value. -/
structure World where
  head : Except String String
  worktree : Except String Unit
  checkoutBranch : Except String Unit
  copyDirectory : Except String Unit
  removeDockerfile : Except String Unit
  statTests : StatResult
  removeTests : Except String Unit
  addGlob : Except String Unit
  loadCSV : Except String ClusterServiceVersion
  loadAnnotations : Except String metadataAnnotations
  writeCSV : Except String Unit
  writeAnnotations : Except String Unit
  lastFileInDir : Except String String
  loadImageSet : Except String addonImageSet
  marshal : addonImageSet → Except String String
  writeFile : Except String Unit
  add : Except String Unit
  commit : Except String Unit
  status : Except String (List String)
  statusText : String
  push : Except String Unit
  getProject : Except String Nat
  createMergeRequest : Except String String
  checkoutMain : Except String Unit

/-- A Go error returned by an external call, as a failure of the caller. -/
def liftErr {α : Type} : Except String α → Except Failure α
  | .ok a => .ok a
  | .error e => .error (.error e)

/-- A piece of an execution: the effects performed and how it ended. -/
abbrev Step (α : Type) : Type := List Effect × Except Failure α

/-- Sequencing with Go's `if err != nil { return err }`: what follows runs only
after a nil error, and its effects come after those already performed. -/
def Step.andThen {α β : Type} (x : Step α) (f : α → Step β) : Step β :=
  match x.2 with
  | .error e => (x.1, .error e)
  | .ok a => (x.1 ++ (f a).1, (f a).2)

/-- An external call that is recorded as an effect. -/
def call {α : Type} (e : Effect) (r : Except String α) : Step α :=
  ([e], liftErr r)

/-- A computation without effect. -/
def quiet {α : Type} (r : Except Failure α) : Step α :=
  ([], r)

/-- True when the trace contains a push to a remote. -/
def pushes (trace : List Effect) : Bool :=
  trace.any (fun e => match e with | .push _ _ => true | _ => false)

/-- True when the trace contains the creation of a merge request. -/
def createsMergeRequest (trace : List Effect) : Bool :=
  trace.any (fun e => match e with | .createMergeRequest _ _ _ => true | _ => false)

/-- True when the working-tree status was read. -/
def readsStatus (trace : List Effect) : Bool :=
  trace.any (fun e => match e with | .status => true | _ => false)

/-! ## Image-set promotion (lines 523-575) -/

/-- The method `getLatestStageAddonImageSetPath` (lines 524-528); the function
`getLastFileInDir` it ends with is external here. -/
def getLatestStageAddonImageSetPath (c : osdAddonReleaseCmd) (w : World) :
    Except Failure String :=
  match c.currentChannel with
  | none => .error .nilPointerDereference
  | some _ => liftErr w.lastFileInDir

/-- The method `getAddonImageSetName` (lines 529-531). -/
def getAddonImageSetName (c : osdAddonReleaseCmd) : Except Failure String :=
  match c.currentChannel with
  | none => .error .nilPointerDereference
  | some currentChannel => .ok (currentChannel.Directory ++ ".v" ++ c.version.String)

/-- The method `getDestAddonImageSetPath` (lines 533-535). -/
def getDestAddonImageSetPath (c : osdAddonReleaseCmd) : Except Failure String :=
  match c.currentChannel with
  | none => .error .nilPointerDereference
  | some currentChannel =>
    match getAddonImageSetName c with
    | .error f => .error f
    | .ok name =>
      .ok ("addons/" ++ currentChannel.Directory ++ "/addonimagesets/" ++
        currentChannel.Environment ++ "/" ++ name ++ ".yaml")

/-- Lines 543-550 of `getAddonImageSet`: the image set loaded from the latest
staging file, with its name set to `getAddonImageSetName`. -/
def promotedImageSet (c : osdAddonReleaseCmd) (w : World) : Except Failure addonImageSet :=
  match getLatestStageAddonImageSetPath c w with
  | .error f => .error f
  | .ok _ =>
    match liftErr w.loadImageSet with
    | .error f => .error f
    | .ok imageSet =>
      match getAddonImageSetName c with
      | .error f => .error f
      | .ok name => .ok { imageSet with Name := name }

/-- The method `getAddonImageSet` (lines 537-559): the promoted image set,
marshalled to YAML. -/
def getAddonImageSet (c : osdAddonReleaseCmd) (w : World) : Except Failure String :=
  match promotedImageSet c w with
  | .error f => .error f
  | .ok imageSet => liftErr (w.marshal imageSet)

/-- The method `copyAddonImageSet` (lines 561-575). -/
def copyAddonImageSet (c : osdAddonReleaseCmd) (w : World) : Step String :=
  (quiet (getAddonImageSet c w)).andThen fun bytes =>
  (quiet (getDestAddonImageSetPath c)).andThen fun relative =>
  (call (.writeImageSet relative bytes) w.writeFile).andThen fun _ =>
  quiet (.ok relative)

/-! ## Bundle promotion (lines 481-521) -/

/-- The method `copyTheOLMBundles` (lines 481-521). -/
def copyTheOLMBundles (c : osdAddonReleaseCmd) (w : World) : Step String :=
  match c.currentChannel with
  | none => quiet (.error .nilPointerDereference)
  | some currentChannel =>
    let relativeDestination := currentChannel.bundlesDirectory ++ "/" ++ c.version.Base ++ "/"
    (call (.copyDirectory relativeDestination) w.copyDirectory).andThen fun _ =>
    (call .removeDockerfile w.removeDockerfile).andThen fun _ =>
    match w.statTests with
    | .failed err => quiet (.error (.error err))
    | .notExist => quiet (.ok relativeDestination)
    | .found =>
      (call .removeTests w.removeTests).andThen fun _ =>
      quiet (.ok relativeDestination)

/-- The method `updateTheCSVManifest` (lines 577-650) with its file accesses:
the two YAML files are loaded, transformed and written back. -/
def updateTheCSVManifestFiles (c : osdAddonReleaseCmd) (w : World) : Step String :=
  match c.currentChannel with
  | none => quiet (.error .nilPointerDereference)
  | some _ =>
    (quiet (liftErr w.loadCSV)).andThen fun csv =>
    (quiet (liftErr w.loadAnnotations)).andThen fun annotations =>
    (quiet (updateTheCSVManifest c csv annotations)).andThen fun out =>
    (call (.writeManifest out.relative) w.writeCSV).andThen fun _ =>
    (call .writeAnnotations w.writeAnnotations).andThen fun _ =>
    quiet (.ok out.relative)

/-! ## The method `run` (lines 341-479) -/

/-- The constant `managedTenantsMainBranch`. -/
def managedTenantsMainBranch : String := "main"

/-- The reference name `plumbing.NewBranchReferenceName(name)`. -/
def NewBranchReferenceName (name : String) : String := "refs/heads/" ++ name

/-- Lines 342-347, the checks at the start of `run`: the channel pointer must
not be nil, and a pre-release version needs a channel that allows it.  The
channel is handed on when both hold. -/
def preReleaseGate (c : osdAddonReleaseCmd) : Except Failure releaseChannel :=
  match c.currentChannel with
  | none => .error (.error "currentChannel is not valid: <nil>")
  | some currentChannel =>
    if c.version.IsPreRelease && !currentChannel.AllowPreRelease then
      .error (.error ("the prerelease version " ++ c.version.String ++
        " can't be pushed to the " ++ currentChannel.Name ++ " channel"))
    else .ok currentChannel

/-- Lines 378-408: the files of the release are produced and staged, by bundle
promotion for `stage` and `edge`, by image-set promotion for `stable`; any
other channel name is an error. -/
def produceRelease (c : osdAddonReleaseCmd) (w : World) : Step Unit :=
  if c.flags.channel = "stage" ∨ c.flags.channel = "edge" then
    (copyTheOLMBundles c w).andThen fun manifestsDirectory =>
    (call (.addGlob (manifestsDirectory ++ "/*")) w.addGlob).andThen fun _ =>
    (updateTheCSVManifestFiles c w).andThen fun _ =>
    quiet (.ok ())
  else if c.flags.channel = "stable" then
    (copyAddonImageSet c w).andThen fun addonFile =>
    (call (.add addonFile) w.add).andThen fun _ =>
    quiet (.ok ())
  else
    quiet (.error (.error ("channel provided is " ++ c.flags.channel ++
      " instead of stage, edge or stable")))

/-- Lines 410-478: commit, check that the tree is clean, push to the fork,
create the merge request, go back to the main branch. -/
def commitAndPublish (c : osdAddonReleaseCmd) (currentChannel : releaseChannel) (w : World)
    (managedTenantsBranch : String) : Step Unit :=
  let branchRef := NewBranchReferenceName managedTenantsBranch
  (call (.commit ("update " ++ c.addonConfig.Name ++ " " ++ currentChannel.Name ++ " to " ++
      c.version.String)) w.commit).andThen fun _ =>
  (call .status w.status).andThen fun status =>
  if status.length ≠ 0 then
    quiet (.error (.error ("the tree is not clean, uncommited changes:\n" ++ w.statusText)))
  else
    (call (.push "fork" (branchRef ++ ":" ++ branchRef)) w.push).andThen fun _ =>
    (quiet (liftErr w.getProject)).andThen fun _ =>
    (call (.createMergeRequest
        ("Update " ++ c.addonConfig.Name ++ " " ++ currentChannel.Name ++ " to " ++ c.version.String)
        managedTenantsBranch managedTenantsMainBranch) w.createMergeRequest).andThen fun _ =>
    (call .checkoutMain w.checkoutMain).andThen fun _ =>
    quiet (.ok ())

/-- The method `run` (lines 341-479): the effects it performs and its result. -/
def run (c : osdAddonReleaseCmd) (w : World) : Step Unit :=
  (quiet (preReleaseGate c)).andThen fun currentChannel =>
  (quiet (liftErr w.head)).andThen fun managedTenantsHead =>
  if managedTenantsHead ≠ NewBranchReferenceName managedTenantsMainBranch then
    quiet (.error (.error ("the managed-tenants repo is pointing to " ++ managedTenantsHead ++
      " instead of main")))
  else
    (quiet (liftErr w.worktree)).andThen fun _ =>
    let managedTenantsBranch :=
      c.addonConfig.Name ++ "-" ++ currentChannel.Name ++ "-v" ++ c.version.String
    (call (.checkoutNewBranch (NewBranchReferenceName managedTenantsBranch))
      w.checkoutBranch).andThen fun _ =>
    (produceRelease c w).andThen fun _ =>
    commitAndPublish c currentChannel w managedTenantsBranch

/-! ## Flag registration in `init` (lines 147-226) -/

/-- The fields of `osdAddonReleaseFlags` a flag can be bound to. -/
inductive FlagField where
  | version
  | channel
  | mergeRequestDescription
  | managedTenantsOrigin
  | managedTenantsFork
  | addonName
  | addonsConfig
deriving DecidableEq, Repr

/-- A flag as registered on the command: its name, its default value, the
field it is bound to (`none` for `gitlab-token`, registered with `String` and
read through viper) and whether it was marked required. -/
structure FlagDef where
  name : String
  defValue : String
  target : Option FlagField
  required : Bool
deriving DecidableEq, Repr

/-- The state of `init` while it runs: the flag structure `f` and the flags
registered so far, in order. -/
structure InitState where
  flags : osdAddonReleaseFlags
  registered : List FlagDef
deriving DecidableEq, Repr

/-- The value `&osdAddonReleaseFlags{}` of line 149: every field is the empty
string. -/
def zeroFlags : osdAddonReleaseFlags :=
  { version := "", channel := "", mergeRequestDescription := "", managedTenantsOrigin := "",
    managedTenantsFork := "", addonName := "", addonsConfig := "" }

/-- The store `*p = value` through the pointer a flag is bound to. -/
def setField (f : osdAddonReleaseFlags) : FlagField → String → osdAddonReleaseFlags
  | .version, v => { f with version := v }
  | .channel, v => { f with channel := v }
  | .mergeRequestDescription, v => { f with mergeRequestDescription := v }
  | .managedTenantsOrigin, v => { f with managedTenantsOrigin := v }
  | .managedTenantsFork, v => { f with managedTenantsFork := v }
  | .addonName, v => { f with addonName := v }
  | .addonsConfig, v => { f with addonsConfig := v }

/-- The call `cmd.Flags().StringVar(&f.field, name, value, usage)` of pflag: the
default is stored in the bound field at once and the flag is registered. -/
def StringVar (st : InitState) (field : FlagField) (name value : String) : InitState :=
  { flags := setField st.flags field value,
    registered := st.registered ++
      [{ name := name, defValue := value, target := some field, required := false }] }

/-- The call `cmd.Flags().String(name, value, usage)`: a flag bound to no field
of `f`. -/
def StringFlag (st : InitState) (name value : String) : InitState :=
  { st with registered := st.registered ++
      [{ name := name, defValue := value, target := none, required := false }] }

/-- The call `cmd.MarkFlagRequired(name)`. -/
def MarkFlagRequired (st : InitState) (name : String) : InitState :=
  { st with registered :=
      st.registered.map (fun d => if d.name = name then { d with required := true } else d) }

/-- Lines 205-213: the defaults of the origin and fork repositories, chosen on
the channel field as it is when `init` runs. -/
def managedTenantsDefaults (channel : String) : String × String :=
  if channel = "stable" then ("service/managed-tenants", "integreatly-qe/managed-tenants")
  else ("service/managed-tenants-bundles", "integreatly-qe/managed-tenants-bundles")

/-- Lines 149-203 of `init`: the flag structure is created and the flags
`name`, `version`, `addons-config`, `channel`, `gitlab-token` and
`merge-request-description` are registered, in that order. -/
def initBeforeDefaults : InitState :=
  let st : InitState := { flags := zeroFlags, registered := [] }
  let st := MarkFlagRequired (StringVar st .addonName "name" "") "name"
  let st := MarkFlagRequired (StringVar st .version "version" "") "version"
  let st := MarkFlagRequired (StringVar st .addonsConfig "addons-config" "") "addons-config"
  let st := StringVar st .channel "channel" "stage"
  let st := StringFlag st "gitlab-token" ""
  StringVar st .mergeRequestDescription "merge-request-description" ""

/-- The function `init` (lines 147-226): after the first registrations the two
defaults are computed from `f.channel` (lines 205-213) and the flags
`managed-tenants-origin` and `managed-tenants-fork` are registered with them.
No command-line argument exists yet when `init` runs. -/
def init : InitState :=
  let st := initBeforeDefaults
  let mt := managedTenantsDefaults st.flags.channel
  let st := StringVar st .managedTenantsOrigin "managed-tenants-origin" mt.1
  StringVar st .managedTenantsFork "managed-tenants-fork" mt.2

/-- The default a flag was registered with. -/
def defaultOf (st : InitState) (name : String) : Option String :=
  (st.registered.find? (fun d => d.name = name)).map (fun d => d.defValue)

/-- One `--name value` argument at parse time: the value is stored in the field
the flag is bound to; a name that was not registered is an error. -/
def parseOne (registered : List FlagDef) (f : osdAddonReleaseFlags) (arg : String × String) :
    Except Failure osdAddonReleaseFlags :=
  match registered.find? (fun d => d.name = arg.1) with
  | none => .error (.error ("unknown flag: --" ++ arg.1))
  | some d =>
    match d.target with
    | none => .ok f
    | some field => .ok (setField f field arg.2)

/-- The parsing of the command line, which cobra does when the command is
executed, after `init`: the arguments are applied from left to right to the
flag structure that `init` left. -/
def parseArgs (registered : List FlagDef) :
    osdAddonReleaseFlags → List (String × String) → Except Failure osdAddonReleaseFlags
  | f, [] => .ok f
  | f, arg :: rest =>
    match parseOne registered f arg with
    | .error e => .error e
    | .ok g => parseArgs registered g rest

/-- The flag structure the `Run` function of the command sees for a command
line. -/
def flagsFor (args : List (String × String)) : Except Failure osdAddonReleaseFlags :=
  parseArgs init.registered init.flags args

/-! ## Definitions used in the statements -/

/-- The entry that one override env var contributes to the rebuilt list. -/
def freshEnvVar (v : deploymentContainerEnvVar) : EnvVar :=
  if v.Name = "WATCH_NAMESPACE" ∨ v.Name = "POD_NAME" then
    { Name := v.Name, Value := v.Value,
      ValueFrom := some { FieldPath := v.ValueFrom.FieldRef.FieldPath } }
  else { Name := v.Name, Value := v.Value, ValueFrom := none }

/-- The marker `.v`, as characters. -/
def marker : List Char := ['.', 'v']

/-- The string contains the marker `.v`. -/
def hasMarker (s : String) : Prop := marker <:+: s.data

/-- Containing the marker is decidable. -/
instance decHasMarker (s : String) : Decidable (hasMarker s) := by
  unfold hasMarker; infer_instance

/-- The message of the error of line 346. -/
def preReleaseMessage (version : RHMIVersion) (channel : releaseChannel) : String :=
  "the prerelease version " ++ version.String ++ " can't be pushed to the " ++ channel.Name ++
    " channel"

/-- The key is one of the three bundle annotation keys of line 622. -/
def isBundleKey (k : String) : Prop :=
  k = "operators.operatorframework.io.bundle.package.v1" ∨
  k = "operators.operatorframework.io.bundle.channels.v1" ∨
  k = "operators.operatorframework.io.bundle.channel.default.v1"

/-- Being one of the three keys is decidable. -/
instance decIsBundleKey (k : String) : Decidable (isBundleKey k) := by
  unfold isBundleKey; infer_instance

/-- What the claim says of the value under key `k` after the rewrite of the
map `m`: `managed-api-service` becomes `managed-api-service-internal` and
`stable` becomes `edge` under the three bundle keys, anything else stays. -/
def expectedValue (m : String → Option String) (k : String) : Option String :=
  if isBundleKey k ∧ m k = some "managed-api-service" then some "managed-api-service-internal"
  else if isBundleKey k ∧ m k = some "stable" then some "edge"
  else m k

/-- The two tests of lines 625-630 on one value. -/
def rewrittenValue (v : Option String) : Option String :=
  if v = some "managed-api-service" then some "managed-api-service-internal"
  else if v = some "stable" then some "edge"
  else v

/-- An effect that neither publishes nor reads the status: the file and
staging operations of the release production. -/
def isPreparation : Effect → Bool
  | .copyDirectory _ => true
  | .removeDockerfile => true
  | .removeTests => true
  | .addGlob _ => true
  | .writeManifest _ => true
  | .writeAnnotations => true
  | .writeImageSet _ _ => true
  | .add _ => true
  | _ => false

/-! ## Example inputs -/

/-- A `stage` channel that allows pre-releases. -/
def stageChannel : releaseChannel :=
  { Name := "stage", Directory := "rhoams", Environment := "stage", AllowPreRelease := true }

/-- An `edge` channel. -/
def edgeChannel : releaseChannel :=
  { Name := "edge", Directory := "rhoams-internal", Environment := "stage", AllowPreRelease := false }

/-- A `stable` channel that does not allow pre-releases. -/
def stableChannel : releaseChannel :=
  { Name := "stable", Directory := "rhoams", Environment := "production", AllowPreRelease := false }

/-- An override with one literal var and one `WATCH_NAMESPACE` var. -/
def sampleOverride : override :=
  { Deployment := { Name := "rhmi-operator", Container := { Name := "rhmi-operator", EnvVars :=
      [{ Name := "ALERT_SMTP_FROM", Value := "noreply@example.com", ValueFrom := ⟨⟨""⟩⟩ },
       { Name := "WATCH_NAMESPACE", Value := "", ValueFrom := ⟨⟨"metadata.namespace"⟩⟩ }] } } }

/-- The addon `managed-api-service` with the three channels and an optional override. -/
def sampleAddon (ov : Option override) : addonConfig :=
  { Name := "managed-api-service",
    Bundle := { Repo := "https://github.com/integr8ly/integreatly-operator", Path := "bundles/managed-api-service" },
    Channels := [stageChannel, edgeChannel, stableChannel],
    Override := ov }

/-- The flags of a release of `managed-api-service` 1.2.3 to the given channel. -/
def sampleFlags (channel : String) : osdAddonReleaseFlags :=
  { version := "1.2.3", channel := channel, mergeRequestDescription := "",
    managedTenantsOrigin := "service/managed-tenants-bundles",
    managedTenantsFork := "integreatly-qe/managed-tenants-bundles",
    addonName := "managed-api-service", addonsConfig := "addons.yaml" }

/-- The command for a release of `managed-api-service` 1.2.3 to a channel. -/
def sampleCmd (channel : releaseChannel) (ov : Option override) : osdAddonReleaseCmd :=
  { flags := sampleFlags channel.Name, version := { base := "1.2.3", build := "" },
    addonConfig := sampleAddon ov, currentChannel := some channel }

/-- The operator container of the sample manifest, with one env var of its own. -/
def sampleContainer : Container :=
  { Name := "rhmi-operator", Image := "quay.io/integreatly/managed-api-service:1.2.3",
    Env := [{ Name := "INSTALLATION_TYPE", Value := "managed-api", ValueFrom := none }] }

/-- The operator deployment of the sample manifest. -/
def sampleDeployment : StrategyDeploymentSpec :=
  { Name := "rhmi-operator", Containers := [sampleContainer] }

/-- A manifest of `managed-api-service` 1.2.3 replacing 1.2.2, with
`SingleNamespace` not yet supported. -/
def sampleCSV : ClusterServiceVersion :=
  { Name := "managed-api-service.v1.2.3", Replaces := "managed-api-service.v1.2.2",
    InstallModes := [{ ModeType := "OwnNamespace", Supported := true },
                     { ModeType := "SingleNamespace", Supported := false },
                     { ModeType := "AllNamespaces", Supported := false }],
    DeploymentSpecs := [sampleDeployment] }

/-- Bundle annotations as the operator ships them. -/
def sampleAnnotations : metadataAnnotations :=
  { Annotations := fun k =>
      if k = "operators.operatorframework.io.bundle.package.v1" then some "managed-api-service"
      else if k = "operators.operatorframework.io.bundle.channels.v1" then some "stable"
      else if k = "operators.operatorframework.io.bundle.mediatype.v1" then some "registry+v1"
      else none }

/-- A manifest whose name carries the marker twice. -/
def twoMarkerCSV : ClusterServiceVersion :=
  { sampleCSV with Name := "managed-api-service.v1.17.0-dev.v2" }

/-- The manifest of a first release: it replaces nothing. -/
def firstReleaseCSV : ClusterServiceVersion :=
  { sampleCSV with Replaces := "" }

/-- A manifest without a `SingleNamespace` install mode. -/
def noSingleNamespaceCSV : ClusterServiceVersion :=
  { sampleCSV with InstallModes := [{ ModeType := "OwnNamespace", Supported := true },
                                    { ModeType := "AllNamespaces", Supported := false }] }

/-- A manifest whose operator deployment has no container of the override's name. -/
def otherContainerCSV : ClusterServiceVersion :=
  { sampleCSV with DeploymentSpecs :=
      [{ Name := "rhmi-operator", Containers := [{ sampleContainer with Name := "manager" }] }] }

/-- A catalog in which the name `managed-api-service` occurs twice. -/
def sampleCatalog : addons :=
  { Addons := [{ sampleAddon none with Name := "other-addon" },
               sampleAddon (some sampleOverride),
               { sampleAddon none with Channels := [] }] }

/-- The pre-release `1.2.3-rc1`. -/
def preReleaseVersion : RHMIVersion := { base := "1.2.3", build := "rc1" }

/-- The command for the pre-release `1.2.3-rc1` on a channel. -/
def preReleaseCmd (channel : releaseChannel) : osdAddonReleaseCmd :=
  { sampleCmd channel none with version := preReleaseVersion }

/-- A world in which every external call succeeds: the clone is on `main`, the
files load, the tree is clean after the commit. -/
def goodWorld : World :=
  { head := .ok "refs/heads/main", worktree := .ok (), checkoutBranch := .ok (),
    copyDirectory := .ok (), removeDockerfile := .ok (), statTests := .found,
    removeTests := .ok (), addGlob := .ok (), loadCSV := .ok sampleCSV,
    loadAnnotations := .ok sampleAnnotations, writeCSV := .ok (), writeAnnotations := .ok (),
    lastFileInDir := .ok "addons/rhoams/addonimagesets/stage/rhoams.v1.2.3-rc2.yaml",
    loadImageSet := .ok { IndexImage := "quay.io/osd-addons/rhoams-index@sha256:0a1b",
                          Name := "rhoams.v1.2.3-rc2",
                          RelatedImages := ["quay.io/integreatly/managed-api-service:1.2.3"] },
    marshal := fun s => .ok ("indexImage: " ++ s.IndexImage ++ "\nname: " ++ s.Name ++
      "\nrelatedImages: " ++ String.intercalate "," s.RelatedImages ++ "\n"),
    writeFile := .ok (), add := .ok (), commit := .ok (), status := .ok [], statusText := "",
    push := .ok (), getProject := .ok 7, createMergeRequest := .ok "https://gitlab.example/mr/1",
    checkoutMain := .ok () }

/-! ## Lemmas on the helpers -/

theorem findFirst_append_cons {α : Type} (p : α → Bool) (pre post : List α) (a : α)
    (hpre : ∀ x ∈ pre, p x = false) (ha : p a = true) :
    findFirst p (pre ++ a :: post) = some (pre.length, a) := by
  induction pre with
  | nil => simp [findFirst, ha]
  | cons x xs ih =>
    have hx : p x = false := hpre x (List.mem_cons_self x xs)
    have hxs : ∀ y ∈ xs, p y = false := fun y hy => hpre y (List.mem_cons_of_mem x hy)
    simp [findFirst, hx, ih hxs]

theorem findFirst_eq_none {α : Type} (p : α → Bool) (l : List α) :
    findFirst p l = none ↔ ∀ x ∈ l, p x = false := by
  induction l with
  | nil => simp [findFirst]
  | cons x xs ih =>
    by_cases hx : p x = true
    · simp [findFirst, hx]
    · have hx2 : p x = false := by simpa using hx
      simp [findFirst, hx2, ih]

theorem findFirst_eq_some {α : Type} (p : α → Bool) (l : List α) (i : Nat) (a : α)
    (h : findFirst p l = some (i, a)) :
    ∃ pre post, l = pre ++ a :: post ∧ i = pre.length ∧ p a = true ∧ ∀ x ∈ pre, p x = false := by
  induction l generalizing i with
  | nil => simp [findFirst] at h
  | cons x xs ih =>
    by_cases hx : p x = true
    · simp [findFirst, hx] at h
      obtain ⟨hi, hxa⟩ := h
      subst hxa
      exact ⟨[], xs, by simp, by simp [hi], hx, by simp⟩
    · have hx2 : p x = false := by simpa using hx
      simp [findFirst, hx2] at h
      obtain ⟨j, hj, hij⟩ := h
      obtain ⟨pre, post, hl, hlen, hpa, hpre⟩ := ih j hj
      refine ⟨x :: pre, post, by simp [hl], by simp [← hij, hlen], hpa, ?_⟩
      intro y hy
      rcases List.mem_cons.mp hy with rfl | hy
      · exact hx2
      · exact hpre y hy

theorem set_length_append_cons {α : Type} (pre post : List α) (a b : α) :
    (pre ++ a :: post).set pre.length b = pre ++ b :: post := by
  induction pre with
  | nil => simp
  | cons x xs ih => simp [ih]

theorem freshEnvVar_name (v : deploymentContainerEnvVar) : (freshEnvVar v).Name = v.Name := by
  unfold freshEnvVar
  split <;> rfl

theorem overrideEnvStep_eq (env : List EnvVar) (v : deploymentContainerEnvVar) :
    overrideEnvStep env v = env ++ [freshEnvVar v] := by
  unfold overrideEnvStep freshEnvVar AddOrUpdateEnvVarWithSource AddOrUpdateEnvVar
  split <;> rfl

theorem foldl_overrideEnvStep (vs : List deploymentContainerEnvVar) (acc : List EnvVar) :
    vs.foldl overrideEnvStep acc = acc ++ vs.map freshEnvVar := by
  induction vs generalizing acc with
  | nil => simp
  | cons v rest ih =>
    rw [List.foldl_cons, overrideEnvStep_eq acc v, ih (acc ++ [freshEnvVar v])]
    simp

theorem overrideEnv_eq_map (vs : List deploymentContainerEnvVar) :
    overrideEnv vs = vs.map freshEnvVar := by
  unfold overrideEnv
  rw [foldl_overrideEnvStep vs []]
  simp

theorem applyOverride_found (config : addonConfig) (csv : ClusterServiceVersion) (ov : override)
    (dpre dpost : List StrategyDeploymentSpec) (dep : StrategyDeploymentSpec)
    (cpre cpost : List Container) (ct : Container)
    (hov : config.Override = some ov)
    (hds : csv.DeploymentSpecs = dpre ++ dep :: dpost)
    (hdpre : ∀ d ∈ dpre, d.Name ≠ ov.Deployment.Name)
    (hdep : dep.Name = ov.Deployment.Name)
    (hcs : dep.Containers = cpre ++ ct :: cpost)
    (hcpre : ∀ x ∈ cpre, x.Name ≠ ov.Deployment.Container.Name)
    (hct : ct.Name = ov.Deployment.Container.Name) :
    applyOverride config csv = .ok { csv with DeploymentSpecs :=
      dpre ++ { dep with Containers :=
        cpre ++ { ct with Env := overrideEnv ov.Deployment.Container.EnvVars } :: cpost } ::
          dpost } := by
  have hd : FindDeploymentByName csv.DeploymentSpecs ov.Deployment.Name =
      some (dpre.length, dep) := by
    unfold FindDeploymentByName
    rw [hds]
    exact findFirst_append_cons _ dpre dpost dep (fun d hd => by simpa using hdpre d hd)
      (by simpa using hdep)
  have hc : FindContainerByName dep.Containers ov.Deployment.Container.Name =
      some (cpre.length, ct) := by
    unfold FindContainerByName
    rw [hcs]
    exact findFirst_append_cons _ cpre cpost ct (fun x hx => by simpa using hcpre x hx)
      (by simpa using hct)
  unfold applyOverride
  simp only [hov, hd, hc]
  rw [hds, hcs, set_length_append_cons, set_length_append_cons]

theorem applyOverride_keeps (config : addonConfig) (csv csv1 : ClusterServiceVersion)
    (h : applyOverride config csv = .ok csv1) :
    csv1.Name = csv.Name ∧ csv1.Replaces = csv.Replaces ∧ csv1.InstallModes = csv.InstallModes := by
  unfold applyOverride at h
  split at h
  · cases h; exact ⟨rfl, rfl, rfl⟩
  · split at h
    · cases h; exact ⟨rfl, rfl, rfl⟩
    · split at h
      · cases h
      · cases h; exact ⟨rfl, rfl, rfl⟩

theorem rewriteIdentity_keeps (addonName : String) (csv csv2 : ClusterServiceVersion)
    (h : rewriteIdentity addonName csv = .ok csv2) :
    csv2.InstallModes = csv.InstallModes ∧ csv2.DeploymentSpecs = csv.DeploymentSpecs := by
  unfold rewriteIdentity at h
  split at h
  · cases h
  · dsimp only at h
    split at h
    · cases h
    · cases h; exact ⟨rfl, rfl⟩

theorem setSingleNamespace_keeps (csv csv3 : ClusterServiceVersion)
    (h : setSingleNamespace csv = .ok csv3) :
    csv3.Name = csv.Name ∧ csv3.Replaces = csv.Replaces ∧
      csv3.DeploymentSpecs = csv.DeploymentSpecs := by
  unfold setSingleNamespace at h
  split at h
  · cases h
  · cases h; exact ⟨rfl, rfl, rfl⟩

/-- A completed transform, step by step: the override step, then the edge
rewrite when the channel is `edge` and the addon `managed-api-service`, then
the install-mode step. -/
theorem updateTheCSVManifest_ok (c : osdAddonReleaseCmd) (csv : ClusterServiceVersion)
    (annotations : metadataAnnotations) (out : ManifestUpdate)
    (h : updateTheCSVManifest c csv annotations = .ok out) :
    ∃ currentChannel csv1 csv2,
      c.currentChannel = some currentChannel ∧
      applyOverride c.addonConfig csv = .ok csv1 ∧
      ((currentChannel.Name = "edge" ∧ c.addonConfig.Name = "managed-api-service" ∧
          rewriteIdentity c.addonConfig.Name csv1 = .ok csv2 ∧
          out.annotations = rewriteAnnotations annotations) ∨
       (¬ (currentChannel.Name = "edge" ∧ c.addonConfig.Name = "managed-api-service") ∧
          csv2 = csv1 ∧ out.annotations = annotations)) ∧
      setSingleNamespace csv2 = .ok out.csv := by
  unfold updateTheCSVManifest at h
  split at h
  · cases h
  · rename_i currentChannel hch
    split at h
    · cases h
    · rename_i csv1 h1
      split at h
      · rename_i hedge
        split at h
        · cases h
        · rename_i csv2 h2
          split at h
          · cases h
          · rename_i csv3 h3
            cases h
            exact ⟨currentChannel, csv1, csv2, hch, h1, Or.inl ⟨hedge.1, hedge.2, h2, rfl⟩, h3⟩
      · rename_i hedge
        split at h
        · cases h
        · rename_i csv3 h3
          cases h
          exact ⟨currentChannel, csv1, csv1, hch, h1, Or.inr ⟨hedge, rfl, rfl⟩, h3⟩

theorem updateTheCSVManifest_deployments (c : osdAddonReleaseCmd) (csv csv1 : ClusterServiceVersion)
    (annotations : metadataAnnotations) (out : ManifestUpdate)
    (h1 : applyOverride c.addonConfig csv = .ok csv1)
    (h : updateTheCSVManifest c csv annotations = .ok out) :
    out.csv.DeploymentSpecs = csv1.DeploymentSpecs := by
  obtain ⟨ch, a, b, _, ha, hb, hc⟩ := updateTheCSVManifest_ok c csv annotations out h
  rw [h1] at ha
  cases ha
  have h3 := (setSingleNamespace_keeps b out.csv hc).2.2
  rcases hb with ⟨_, _, h2, _⟩ | ⟨_, h2, _⟩
  · rw [h3, (rewriteIdentity_keeps _ _ _ h2).2]
  · rw [h3, h2]

/-! ## Override application (lines 597-613) -/

/-- C1: for every override env-var list, when the manifest has the deployment
named by the override (`dep`, the first of that name) and that deployment has
the container named by the override (`ct`, the first of that name), the
override step succeeds and changes only the env list of that container; the
completed transform keeps that deployment list; the new env list has as many
entries as the override list, its i-th
entry carries the name of the i-th override var, is a field reference sourced
from the override's field path when that name is `WATCH_NAMESPACE` or
`POD_NAME` and a literal with the override's value otherwise; the new env list
is computed from the override alone, so no previous env var survives. -/
theorem override_env_rebuilt (c : osdAddonReleaseCmd) (csv : ClusterServiceVersion)
    (annotations : metadataAnnotations) (ov : override)
    (dpre dpost : List StrategyDeploymentSpec) (dep : StrategyDeploymentSpec)
    (cpre cpost : List Container) (ct : Container)
    (hov : c.addonConfig.Override = some ov)
    (hds : csv.DeploymentSpecs = dpre ++ dep :: dpost)
    (hdpre : ∀ d ∈ dpre, d.Name ≠ ov.Deployment.Name)
    (hdep : dep.Name = ov.Deployment.Name)
    (hcs : dep.Containers = cpre ++ ct :: cpost)
    (hcpre : ∀ x ∈ cpre, x.Name ≠ ov.Deployment.Container.Name)
    (hct : ct.Name = ov.Deployment.Container.Name) :
    applyOverride c.addonConfig csv = .ok { csv with DeploymentSpecs :=
      dpre ++ { dep with Containers :=
        cpre ++ { ct with Env := overrideEnv ov.Deployment.Container.EnvVars } :: cpost } ::
          dpost } ∧
    (∀ out, updateTheCSVManifest c csv annotations = .ok out →
      out.csv.DeploymentSpecs = dpre ++ { dep with Containers :=
        cpre ++ { ct with Env := overrideEnv ov.Deployment.Container.EnvVars } :: cpost } ::
          dpost) ∧
    (overrideEnv ov.Deployment.Container.EnvVars).length =
      ov.Deployment.Container.EnvVars.length ∧
    (∀ (i : Nat) (v : deploymentContainerEnvVar), ov.Deployment.Container.EnvVars[i]? = some v →
      ∃ e : EnvVar, (overrideEnv ov.Deployment.Container.EnvVars)[i]? = some e ∧
        e.Name = v.Name ∧
        ((v.Name = "WATCH_NAMESPACE" ∨ v.Name = "POD_NAME") →
          e.ValueFrom = some { FieldPath := v.ValueFrom.FieldRef.FieldPath }) ∧
        (¬ (v.Name = "WATCH_NAMESPACE" ∨ v.Name = "POD_NAME") →
          e.ValueFrom = none ∧ e.Value = v.Value)) := by
  have happly := applyOverride_found c.addonConfig csv ov dpre dpost dep cpre cpost ct
    hov hds hdpre hdep hcs hcpre hct
  refine ⟨happly, ?_, ?_, ?_⟩
  · intro out hout
    rw [updateTheCSVManifest_deployments c csv _ annotations out happly hout]
  · rw [overrideEnv_eq_map, List.length_map]
  · intro i v hv
    rw [overrideEnv_eq_map]
    refine ⟨freshEnvVar v, by simp [hv], freshEnvVar_name v, ?_, ?_⟩
    · intro hname
      simp [freshEnvVar, hname]
    · intro hname
      simp [freshEnvVar, hname]

/-- C1, witness: on the sample manifest, whose operator container has an env
var of its own, the override of one literal var and one `WATCH_NAMESPACE` var
leaves exactly two entries, the literal first and the field reference second. -/
theorem override_env_rebuilt_witness :
    applyOverride (sampleAddon (some sampleOverride)) sampleCSV =
      .ok { sampleCSV with DeploymentSpecs :=
        [{ Name := "rhmi-operator", Containers :=
          [{ sampleContainer with Env :=
            [{ Name := "ALERT_SMTP_FROM", Value := "noreply@example.com", ValueFrom := none },
             { Name := "WATCH_NAMESPACE", Value := "",
               ValueFrom := some { FieldPath := "metadata.namespace" } }] }] }] } ∧
    (overrideEnv sampleOverride.Deployment.Container.EnvVars).length = 2 :=
  have h := override_env_rebuilt (sampleCmd stageChannel (some sampleOverride)) sampleCSV
    sampleAnnotations sampleOverride [] [] sampleDeployment [] [] sampleContainer
    rfl rfl (by decide) (by decide) rfl (by decide) (by decide)
  ⟨h.1.trans (by decide), h.2.2.1⟩

theorem marker_isPrefixOf (l : List Char) : marker.isPrefixOf l = true ↔ marker <+: l := by
  exact List.isPrefixOf_iff_prefix

theorem stringsCut_eq_none (s : List Char) :
    stringsCut marker s = none ↔ ¬ marker <:+: s := by
  induction s with
  | nil => simp [stringsCut, marker]
  | cons c cs ih =>
    rw [List.infix_cons_iff]
    by_cases hp : marker.isPrefixOf (c :: cs) = true
    · have hp2 := (marker_isPrefixOf _).mp hp
      simp [stringsCut, hp, hp2]
    · have hp2 : ¬ marker <+: c :: cs := fun h => hp ((marker_isPrefixOf _).mpr h)
      have hp3 : marker.isPrefixOf (c :: cs) = false := Bool.eq_false_iff.mpr hp
      simp [stringsCut, hp3, hp2, ih]

theorem stringsCut_first (pre rest : List Char) (hpre : ¬ marker <:+: pre) :
    stringsCut marker (pre ++ marker ++ rest) = some (pre, rest) := by
  induction pre with
  | nil => simp [stringsCut, marker]
  | cons c p ih =>
    rw [List.infix_cons_iff] at hpre
    push_neg at hpre
    obtain ⟨hpfx, hp⟩ := hpre
    have hno : marker.isPrefixOf (c :: p ++ marker ++ rest) = false := by
      cases p with
      | nil =>
        simp [marker, List.isPrefixOf]
      | cons d p2 =>
        have : ¬ (c = '.' ∧ d = 'v') := by
          intro h
          apply hpfx
          rw [h.1, h.2]
          exact ⟨p2, rfl⟩
        simp [marker, List.isPrefixOf]
        intro h1 h2
        exact this ⟨h1.symm, h2.symm⟩
    have ih2 := ih hp
    simp only [List.cons_append, List.append_assoc] at hno ih2 ⊢
    simp [stringsCut, hno, ih2]

theorem stringsSplit_marker (s : String) :
    stringsSplit s ".v" = (splitPieces marker s.length s.data).map String.mk := by
  unfold stringsSplit
  rfl

theorem versionAfterMarker_none (s : String) (h : ¬ hasMarker s) :
    versionAfterMarker s = .error .indexOutOfRange := by
  unfold versionAfterMarker
  rw [stringsSplit_marker]
  have hcut := (stringsCut_eq_none s.data).mpr h
  cases hn : s.length with
  | zero => simp [splitPieces, indexOne]
  | succ n => simp [splitPieces, hcut, indexOne]

theorem versionAfterMarker_some (s : String) (pre mid rest : List Char)
    (hs : s.data = pre ++ marker ++ (mid ++ rest))
    (hpre : ¬ marker <:+: pre) (hmid : ¬ marker <:+: mid)
    (hrest : rest = [] ∨ ∃ t, rest = marker ++ t) :
    versionAfterMarker s = .ok (String.mk mid) := by
  unfold versionAfterMarker
  rw [stringsSplit_marker]
  have hlen : s.length = (pre.length + mid.length + rest.length) + 1 + 1 := by
    show s.data.length = _
    rw [hs]
    simp [marker]
    omega
  have hcut := stringsCut_first pre (mid ++ rest) hpre
  rw [hlen, hs]
  simp only [splitPieces, hcut]
  rcases hrest with hr | ⟨t, ht⟩
  · subst hr
    have hc2 := (stringsCut_eq_none mid).mpr hmid
    simp [hc2, indexOne]
  · subst ht
    have hc2 := stringsCut_first mid t hmid
    rw [← List.append_assoc, hc2]
    simp [indexOne]

/-- The piece taken from `pre ++ ".v" ++ mid ++ rest` is `mid` when neither
`pre` nor `mid` contains the marker and `rest` is empty or starts with it. -/
theorem versionAfterMarker_pieces (s pre mid rest : String)
    (hs : s = pre ++ ".v" ++ mid ++ rest)
    (hpre : ¬ hasMarker pre) (hmid : ¬ hasMarker mid)
    (hrest : rest = "" ∨ ∃ t : String, rest = ".v" ++ t) :
    versionAfterMarker s = .ok mid := by
  have h := versionAfterMarker_some s pre.data mid.data rest.data
    (by rw [hs]; simp [String.data_append, marker]) hpre hmid
    (by
      rcases hrest with hr | ⟨t, ht⟩
      · left; rw [hr]
      · right; exact ⟨t.data, by rw [ht]; simp [String.data_append, marker]⟩)
  exact h

theorem rewriteIdentity_pieces (addonName : String) (csv : ClusterServiceVersion)
    (pre mid rest pre2 mid2 rest2 : String)
    (hname : csv.Name = pre ++ ".v" ++ mid ++ rest)
    (hpre : ¬ hasMarker pre) (hmid : ¬ hasMarker mid)
    (hrest : rest = "" ∨ ∃ t : String, rest = ".v" ++ t)
    (hrepl : csv.Replaces = pre2 ++ ".v" ++ mid2 ++ rest2)
    (hpre2 : ¬ hasMarker pre2) (hmid2 : ¬ hasMarker mid2)
    (hrest2 : rest2 = "" ∨ ∃ t : String, rest2 = ".v" ++ t) :
    rewriteIdentity addonName csv =
      .ok { csv with Name := addonName ++ "-internal.v" ++ mid,
                     Replaces := addonName ++ "-internal.v" ++ mid2 } := by
  unfold rewriteIdentity
  rw [versionAfterMarker_pieces csv.Name pre mid rest hname hpre hmid hrest]
  simp only
  rw [versionAfterMarker_pieces csv.Replaces pre2 mid2 rest2 hrepl hpre2 hmid2 hrest2]

theorem versionAfterMarker_error (s : String) (f : Failure)
    (h : versionAfterMarker s = .error f) : f = .indexOutOfRange := by
  unfold versionAfterMarker at h
  generalize stringsSplit s ".v" = pieces at h
  match pieces, h with
  | [], h => simp [indexOne] at h; exact h.symm
  | [_], h => simp [indexOne] at h; exact h.symm
  | _ :: _ :: _, h => simp [indexOne] at h

theorem rewriteIdentity_no_marker (addonName : String) (csv : ClusterServiceVersion)
    (h : ¬ hasMarker csv.Name ∨ ¬ hasMarker csv.Replaces) :
    rewriteIdentity addonName csv = .error .indexOutOfRange := by
  unfold rewriteIdentity
  by_cases hn : hasMarker csv.Name
  · have hr : ¬ hasMarker csv.Replaces := by
      rcases h with h | h
      · exact absurd hn h
      · exact h
    cases hv : versionAfterMarker csv.Name with
    | error f =>
      rw [versionAfterMarker_error csv.Name f hv]
    | ok v =>
      simp only
      rw [versionAfterMarker_none csv.Replaces hr]
  · rw [versionAfterMarker_none csv.Name hn]

theorem internal_name (mid : String) :
    "managed-api-service" ++ "-internal.v" ++ mid = "managed-api-service-internal.v" ++ mid := by
  rw [show "managed-api-service" ++ "-internal.v" = "managed-api-service-internal.v" by decide]

theorem stringsCut_some (s b a : List Char) (h : stringsCut marker s = some (b, a)) :
    s = b ++ marker ++ a ∧ ¬ marker <:+: b := by
  induction s generalizing b with
  | nil => simp [stringsCut] at h
  | cons c cs ih =>
    by_cases hp : marker.isPrefixOf (c :: cs) = true
    · simp only [stringsCut, hp, if_true, Option.some.injEq, Prod.mk.injEq] at h
      obtain ⟨hb, ha⟩ := h
      obtain ⟨t, ht⟩ := (marker_isPrefixOf _).mp hp
      subst hb
      refine ⟨?_, by simp [marker]⟩
      rw [← ha, ← ht]
      simp [marker]
    · have hp3 : marker.isPrefixOf (c :: cs) = false := Bool.eq_false_iff.mpr hp
      unfold stringsCut at h
      rw [if_neg (by rw [hp3]; exact Bool.false_ne_true)] at h
      cases hcut : stringsCut marker cs with
      | none => rw [hcut] at h; cases h
      | some r =>
      obtain ⟨b2, a2⟩ := r
      rw [hcut] at h
      injection h with h
      injection h with hb ha
      simp only at hb ha
      subst ha
      obtain ⟨hs, hno⟩ := ih b2 hcut
      subst hb
      refine ⟨by rw [hs]; simp, ?_⟩
      rw [List.infix_cons_iff]
      rintro (hpre | hin)
      · apply hp
        rw [marker_isPrefixOf]
        obtain ⟨t, ht⟩ := hpre
        exact ⟨t ++ marker ++ a2, by rw [hs, ← List.append_assoc, ← List.append_assoc, ht]; simp⟩
      · exact hno hin

/-- Every string that contains the marker is `pre ++ ".v" ++ mid ++ rest` with
no marker in `pre` or `mid` and `rest` empty or starting with the marker. -/
theorem hasMarker_pieces (s : String) (h : hasMarker s) :
    ∃ pre mid rest : String, s = pre ++ ".v" ++ mid ++ rest ∧
      ¬ hasMarker pre ∧ ¬ hasMarker mid ∧ (rest = "" ∨ ∃ t : String, rest = ".v" ++ t) := by
  cases hc : stringsCut marker s.data with
  | none => exact absurd h ((stringsCut_eq_none s.data).mp hc)
  | some r =>
    obtain ⟨b, a⟩ := r
    obtain ⟨hs, hb⟩ := stringsCut_some s.data b a hc
    cases hc2 : stringsCut marker a with
    | none =>
      refine ⟨⟨b⟩, ⟨a⟩, "", ?_, hb, (stringsCut_eq_none a).mp hc2, Or.inl rfl⟩
      apply String.ext
      simp [String.data_append, hs, marker]
    | some r2 =>
      obtain ⟨b2, a2⟩ := r2
      obtain ⟨ha, hb2⟩ := stringsCut_some a b2 a2 hc2
      refine ⟨⟨b⟩, ⟨b2⟩, ".v" ++ ⟨a2⟩, ?_, hb, hb2, Or.inr ⟨⟨a2⟩, rfl⟩⟩
      apply String.ext
      simp [String.data_append, hs, ha, marker]

/-- The rewrite step completes exactly when the name and the replaces value
both contain the marker. -/
theorem rewriteIdentity_isOk (addonName : String) (csv : ClusterServiceVersion) :
    isOk (rewriteIdentity addonName csv) = true ↔ hasMarker csv.Name ∧ hasMarker csv.Replaces := by
  constructor
  · intro h
    by_contra hne
    have hm : ¬ hasMarker csv.Name ∨ ¬ hasMarker csv.Replaces := by
      by_cases h1 : hasMarker csv.Name
      · exact Or.inr (fun h2 => hne ⟨h1, h2⟩)
      · exact Or.inl h1
    rw [rewriteIdentity_no_marker addonName csv hm] at h
    simp [isOk] at h
  · rintro ⟨h1, h2⟩
    obtain ⟨pre, mid, rest, e1, p1, m1, r1⟩ := hasMarker_pieces csv.Name h1
    obtain ⟨pre2, mid2, rest2, e2, p2, m2, r2⟩ := hasMarker_pieces csv.Replaces h2
    rw [rewriteIdentity_pieces addonName csv pre mid rest pre2 mid2 rest2 e1 p1 m1 r1 e2 p2 m2 r2]
    rfl

/-! ## Edge-channel identity rewrite (lines 615-620) -/

/-- C2, counterexample: the name `managed-api-service.v1.17.0-dev.v2` has
`1.17.0-dev.v2` after its first `.v`, and the transform on the edge channel
names the manifest `managed-api-service-internal.v1.17.0-dev`: what follows
the second `.v` is dropped. -/
theorem edge_identity_second_marker_counterexample :
    twoMarkerCSV.Name = "managed-api-service" ++ ".v" ++ "1.17.0-dev.v2" ∧
    ¬ hasMarker "managed-api-service" ∧
    (updateTheCSVManifest (sampleCmd edgeChannel none) twoMarkerCSV sampleAnnotations).map
      (fun out => out.csv.Name) = .ok "managed-api-service-internal.v1.17.0-dev" := by
  decide

/-- C2, amended: on the channel `edge` for the addon `managed-api-service`,
when the name is `pre ++ ".v" ++ mid ++ rest` with no marker in `pre` or `mid`
and `rest` empty or starting with `.v` (that is, `mid` is the text between the
first `.v` and the next one, or everything after the first `.v` when there is
no other), and the replaces value likewise, the rewrite step succeeds and
gives the name `managed-api-service-internal.v` followed by `mid` and the
replaces value `managed-api-service-internal.v` followed by its `mid`, and a
completed transform carries exactly these two values. -/
theorem edge_identity_rewrite (c : osdAddonReleaseCmd) (csv : ClusterServiceVersion)
    (annotations : metadataAnnotations) (currentChannel : releaseChannel)
    (pre mid rest pre2 mid2 rest2 : String)
    (hch : c.currentChannel = some currentChannel)
    (hedge : currentChannel.Name = "edge")
    (haddon : c.addonConfig.Name = "managed-api-service")
    (hname : csv.Name = pre ++ ".v" ++ mid ++ rest)
    (hpre : ¬ hasMarker pre) (hmid : ¬ hasMarker mid)
    (hrest : rest = "" ∨ ∃ t : String, rest = ".v" ++ t)
    (hrepl : csv.Replaces = pre2 ++ ".v" ++ mid2 ++ rest2)
    (hpre2 : ¬ hasMarker pre2) (hmid2 : ¬ hasMarker mid2)
    (hrest2 : rest2 = "" ∨ ∃ t : String, rest2 = ".v" ++ t) :
    rewriteIdentity c.addonConfig.Name csv =
      .ok { csv with Name := "managed-api-service-internal.v" ++ mid,
                     Replaces := "managed-api-service-internal.v" ++ mid2 } ∧
    ∀ out, updateTheCSVManifest c csv annotations = .ok out →
      out.csv.Name = "managed-api-service-internal.v" ++ mid ∧
      out.csv.Replaces = "managed-api-service-internal.v" ++ mid2 := by
  constructor
  · rw [rewriteIdentity_pieces c.addonConfig.Name csv pre mid rest pre2 mid2 rest2 hname hpre hmid
      hrest hrepl hpre2 hmid2 hrest2, haddon, internal_name, internal_name]
  · intro out hout
    obtain ⟨ch, csv1, csv2, hch2, h1, h2, h3⟩ := updateTheCSVManifest_ok c csv annotations out hout
    rw [hch] at hch2
    cases hch2
    obtain ⟨k1, k2, _⟩ := applyOverride_keeps _ _ _ h1
    obtain ⟨s1, s2, _⟩ := setSingleNamespace_keeps _ _ h3
    rcases h2 with ⟨_, _, hrw, _⟩ | ⟨hne, _, _⟩
    · rw [rewriteIdentity_pieces c.addonConfig.Name csv1 pre mid rest pre2 mid2 rest2
        (k1.trans hname) hpre hmid hrest (k2.trans hrepl) hpre2 hmid2 hrest2] at hrw
      cases hrw
      rw [s1, s2, haddon, internal_name, internal_name]
      exact ⟨rfl, rfl⟩
    · exact absurd ⟨hedge, haddon⟩ hne

/-- C2, witness: `managed-api-service.v1.2.3` replacing
`managed-api-service.v1.2.2` becomes `managed-api-service-internal.v1.2.3`
replacing `managed-api-service-internal.v1.2.2`. -/
theorem edge_identity_rewrite_witness :
    rewriteIdentity "managed-api-service" sampleCSV =
      .ok { sampleCSV with Name := "managed-api-service-internal.v" ++ "1.2.3",
                           Replaces := "managed-api-service-internal.v" ++ "1.2.2" } :=
  (edge_identity_rewrite (sampleCmd edgeChannel none) sampleCSV sampleAnnotations edgeChannel
    "managed-api-service" "1.2.3" "" "managed-api-service" "1.2.2" ""
    rfl rfl rfl (by decide) (by decide) (by decide) (Or.inl rfl)
    (by decide) (by decide) (by decide) (Or.inl rfl)).1

theorem applyOverride_error (config : addonConfig) (csv : ClusterServiceVersion) (f : Failure)
    (h : applyOverride config csv = .error f) : f = .nilPointerDereference := by
  unfold applyOverride at h
  split at h
  · cases h
  · split at h
    · cases h
    · split at h
      · cases h; rfl
      · cases h

theorem rewriteIdentity_error (addonName : String) (csv : ClusterServiceVersion) (f : Failure)
    (h : rewriteIdentity addonName csv = .error f) : f = .indexOutOfRange := by
  unfold rewriteIdentity at h
  split at h
  · rename_i g hg
    cases h
    exact versionAfterMarker_error _ _ hg
  · dsimp only at h
    split at h
    · rename_i g hg
      cases h
      exact versionAfterMarker_error _ _ hg
    · cases h

theorem setSingleNamespace_error (csv : ClusterServiceVersion) (f : Failure)
    (h : setSingleNamespace csv = .error f) : f = .nilPointerDereference := by
  unfold setSingleNamespace at h
  split at h
  · cases h; rfl
  · cases h

/-- The transform between loading and writing returns no error value: it
completes or it panics. -/
theorem updateTheCSVManifest_error (c : osdAddonReleaseCmd) (csv : ClusterServiceVersion)
    (annotations : metadataAnnotations) (f : Failure)
    (h : updateTheCSVManifest c csv annotations = .error f) :
    f = .nilPointerDereference ∨ f = .indexOutOfRange := by
  unfold updateTheCSVManifest at h
  split at h
  · cases h; exact Or.inl rfl
  · split at h
    · rename_i g hg
      cases h
      exact Or.inl (applyOverride_error _ _ _ hg)
    · split at h
      · split at h
        · rename_i g hg
          cases h
          exact Or.inr (rewriteIdentity_error _ _ _ hg)
        · split at h
          · rename_i g hg
            cases h
            exact Or.inl (setSingleNamespace_error _ _ hg)
          · cases h
      · split at h
        · rename_i g hg
          cases h
          exact Or.inl (setSingleNamespace_error _ _ hg)
        · cases h

theorem updateTheCSVManifestFiles_of_error (c : osdAddonReleaseCmd) (w : World)
    (currentChannel : releaseChannel) (csv : ClusterServiceVersion)
    (annotations : metadataAnnotations) (f : Failure)
    (hch : c.currentChannel = some currentChannel)
    (hcsv : w.loadCSV = .ok csv) (hann : w.loadAnnotations = .ok annotations)
    (h : updateTheCSVManifest c csv annotations = .error f) :
    updateTheCSVManifestFiles c w = ([], .error f) := by
  unfold updateTheCSVManifestFiles
  simp only [hch, hcsv, hann, quiet, liftErr, Step.andThen, h]
  rfl

/-! ## Missing version marker (lines 616 and 619) -/

/-- C5, counterexample: on the edge channel, a manifest with an empty replaces
value makes the transform stop with a runtime panic; it returns no result. -/
theorem edge_identity_empty_replaces_counterexample :
    ¬ hasMarker firstReleaseCSV.Replaces ∧
    isPanic (updateTheCSVManifest (sampleCmd edgeChannel none) firstReleaseCSV sampleAnnotations)
      = true ∧
    isOk (updateTheCSVManifest (sampleCmd edgeChannel none) firstReleaseCSV sampleAnnotations)
      = false := by
  decide

/-- C5, amended: on the channel `edge` for the addon `managed-api-service`,
when the manifest's name or its replaces value contains no `.v` marker, the
rewrite step stops with the index-out-of-range panic of `Split(...)[1]` and
produces no rewritten value.  Whenever the override step before it has passed,
the manifest reaches the rewrite step with the same name and replaces value
and the transform, with or without its file accesses, ends in exactly that
panic.  In every case, the override step passed or not, the transform does
not carry on: it ends in a runtime panic, returns neither a result nor an
error value, and with both files loaded it writes neither the manifest nor
the annotations. -/
theorem edge_identity_missing_marker (c : osdAddonReleaseCmd) (csv : ClusterServiceVersion)
    (annotations : metadataAnnotations) (currentChannel : releaseChannel)
    (hch : c.currentChannel = some currentChannel)
    (hedge : currentChannel.Name = "edge")
    (haddon : c.addonConfig.Name = "managed-api-service")
    (hmarker : ¬ hasMarker csv.Name ∨ ¬ hasMarker csv.Replaces) :
    rewriteIdentity c.addonConfig.Name csv = .error .indexOutOfRange ∧
    (∀ csv1, applyOverride c.addonConfig csv = .ok csv1 →
      rewriteIdentity c.addonConfig.Name csv1 = .error .indexOutOfRange ∧
      updateTheCSVManifest c csv annotations = .error .indexOutOfRange ∧
      ∀ w : World, w.loadCSV = .ok csv → w.loadAnnotations = .ok annotations →
        updateTheCSVManifestFiles c w = ([], .error .indexOutOfRange)) ∧
    isPanic (updateTheCSVManifest c csv annotations) = true ∧
    isOk (updateTheCSVManifest c csv annotations) = false ∧
    isReturnedError (updateTheCSVManifest c csv annotations) = false ∧
    (∀ w : World, w.loadCSV = .ok csv → w.loadAnnotations = .ok annotations →
      (updateTheCSVManifestFiles c w).1 = [] ∧
      isPanic (updateTheCSVManifestFiles c w).2 = true ∧
      isOk (updateTheCSVManifestFiles c w).2 = false ∧
      isReturnedError (updateTheCSVManifestFiles c w).2 = false) := by
  have hstep : ∀ csv1, applyOverride c.addonConfig csv = .ok csv1 →
      rewriteIdentity c.addonConfig.Name csv1 = .error .indexOutOfRange ∧
      updateTheCSVManifest c csv annotations = .error .indexOutOfRange := by
    intro csv1 h1
    obtain ⟨k1, k2, _⟩ := applyOverride_keeps _ _ _ h1
    have hm1 : ¬ hasMarker csv1.Name ∨ ¬ hasMarker csv1.Replaces := by
      rw [k1, k2]; exact hmarker
    have hrw := rewriteIdentity_no_marker c.addonConfig.Name csv1 hm1
    refine ⟨hrw, ?_⟩
    unfold updateTheCSVManifest
    simp only [hch, h1, hedge, haddon, and_self, if_true]
    rw [← haddon, hrw]
  have hfail : ∃ f, updateTheCSVManifest c csv annotations = .error f ∧
      (f = .nilPointerDereference ∨ f = .indexOutOfRange) := by
    cases h1 : applyOverride c.addonConfig csv with
    | ok csv1 => exact ⟨.indexOutOfRange, (hstep csv1 h1).2, Or.inr rfl⟩
    | error f =>
      have hu : updateTheCSVManifest c csv annotations = .error f := by
        unfold updateTheCSVManifest
        simp only [hch, h1]
      exact ⟨f, hu, updateTheCSVManifest_error c csv annotations f hu⟩
  obtain ⟨f, hu, hf⟩ := hfail
  have hp : isPanic (Except.error f : Except Failure ManifestUpdate) = true := by
    rcases hf with hf | hf <;> rw [hf] <;> rfl
  have hr : isReturnedError (Except.error f : Except Failure ManifestUpdate) = false := by
    rcases hf with hf | hf <;> rw [hf] <;> rfl
  have hp2 : isPanic (Except.error f : Except Failure String) = true := by
    rcases hf with hf | hf <;> rw [hf] <;> rfl
  have hr2 : isReturnedError (Except.error f : Except Failure String) = false := by
    rcases hf with hf | hf <;> rw [hf] <;> rfl
  refine ⟨rewriteIdentity_no_marker _ csv hmarker, ?_, ?_, ?_, ?_, ?_⟩
  · intro csv1 h1
    refine ⟨(hstep csv1 h1).1, (hstep csv1 h1).2, ?_⟩
    intro w hcsv hann
    exact updateTheCSVManifestFiles_of_error c w currentChannel csv annotations _ hch hcsv hann
      (hstep csv1 h1).2
  · rw [hu]; exact hp
  · rw [hu]; rfl
  · rw [hu]; exact hr
  · intro w hcsv hann
    rw [updateTheCSVManifestFiles_of_error c w currentChannel csv annotations f hch hcsv hann hu]
    exact ⟨rfl, hp2, rfl, hr2⟩

/-- C5, witness: the first release of `managed-api-service` on the edge channel,
its two files loaded: the transform ends in the index-out-of-range panic and
writes nothing; with an override whose container the manifest lacks, the
transform of the same release still ends in a panic and writes nothing. -/
theorem edge_identity_missing_marker_witness :
    (updateTheCSVManifest (sampleCmd edgeChannel none) firstReleaseCSV sampleAnnotations =
        .error .indexOutOfRange ∧
      updateTheCSVManifestFiles (sampleCmd edgeChannel none)
        { goodWorld with loadCSV := .ok firstReleaseCSV } = ([], .error .indexOutOfRange)) ∧
    ((updateTheCSVManifestFiles (sampleCmd edgeChannel (some sampleOverride))
        { goodWorld with loadCSV := .ok { otherContainerCSV with Replaces := "" } }).1 = [] ∧
      isPanic (updateTheCSVManifestFiles (sampleCmd edgeChannel (some sampleOverride))
        { goodWorld with loadCSV := .ok { otherContainerCSV with Replaces := "" } }).2 = true) :=
  have h := (edge_identity_missing_marker (sampleCmd edgeChannel none) firstReleaseCSV
    sampleAnnotations edgeChannel rfl rfl rfl (Or.inr (by decide))).2.1 firstReleaseCSV rfl
  have h2 := (edge_identity_missing_marker (sampleCmd edgeChannel (some sampleOverride))
    { otherContainerCSV with Replaces := "" } sampleAnnotations edgeChannel rfl rfl rfl
    (Or.inr (by decide))).2.2.2.2.2
    { goodWorld with loadCSV := .ok { otherContainerCSV with Replaces := "" } } rfl rfl
  ⟨⟨h.2.1, h.2.2 { goodWorld with loadCSV := .ok firstReleaseCSV } rfl rfl⟩, h2.1, h2.2.1⟩

theorem setSingleNamespace_found (csv : ClusterServiceVersion) (pre post : List InstallMode)
    (m : InstallMode) (hmodes : csv.InstallModes = pre ++ m :: post)
    (hpre : ∀ x ∈ pre, x.ModeType ≠ "SingleNamespace") (hm : m.ModeType = "SingleNamespace") :
    setSingleNamespace csv =
      .ok { csv with InstallModes := pre ++ { m with Supported := true } :: post } := by
  have hf : FindInstallMode csv.InstallModes InstallModeTypeSingleNamespace =
      some (pre.length, m) := by
    unfold FindInstallMode InstallModeTypeSingleNamespace
    rw [hmodes]
    exact findFirst_append_cons _ pre post m (fun x hx => by simpa using hpre x hx)
      (by simpa using hm)
  unfold setSingleNamespace
  simp only [hf]
  rw [hmodes, set_length_append_cons]

theorem setSingleNamespace_missing (csv : ClusterServiceVersion) :
    setSingleNamespace csv = .error .nilPointerDereference ↔
      ∀ m ∈ csv.InstallModes, m.ModeType ≠ "SingleNamespace" := by
  have hiff := findFirst_eq_none (fun m : InstallMode => m.ModeType == "SingleNamespace")
    csv.InstallModes
  unfold setSingleNamespace FindInstallMode InstallModeTypeSingleNamespace
  constructor
  · intro h
    split at h
    · rename_i hnone
      intro m hm
      simpa using hiff.mp hnone m hm
    · cases h
  · intro h
    have hnone := hiff.mpr (fun m hm => by simpa using h m hm)
    simp only [hnone]

/-! ## SingleNamespace install mode (lines 634-639) -/

/-- C3: what the code does at the install-mode step.  The step is stopped by
the nil-pointer panic of line 639 exactly when the manifest's install-mode list
has no `SingleNamespace` entry; neither the step nor the transform returns an
error value, so no install-mode-not-found error is ever reported, and the
transform does not complete on such a manifest.  When `m` is the first
`SingleNamespace` entry the step succeeds, `m` has `Supported = true`
afterwards whatever it was, every other entry is unchanged, and a completed
transform carries exactly that list. -/
theorem single_namespace_install_mode (c : osdAddonReleaseCmd) (csv : ClusterServiceVersion)
    (annotations : metadataAnnotations) :
    (setSingleNamespace csv = .error .nilPointerDereference ↔
      ∀ m ∈ csv.InstallModes, m.ModeType ≠ "SingleNamespace") ∧
    isReturnedError (setSingleNamespace csv) = false ∧
    isReturnedError (updateTheCSVManifest c csv annotations) = false ∧
    ((∀ m ∈ csv.InstallModes, m.ModeType ≠ "SingleNamespace") →
      isOk (updateTheCSVManifest c csv annotations) = false) ∧
    (∀ (pre post : List InstallMode) (m : InstallMode),
      csv.InstallModes = pre ++ m :: post →
      (∀ x ∈ pre, x.ModeType ≠ "SingleNamespace") → m.ModeType = "SingleNamespace" →
      setSingleNamespace csv =
        .ok { csv with InstallModes := pre ++ { m with Supported := true } :: post } ∧
      ∀ out, updateTheCSVManifest c csv annotations = .ok out →
        out.csv.InstallModes = pre ++ { m with Supported := true } :: post) := by
  refine ⟨setSingleNamespace_missing csv, ?_, ?_, ?_, ?_⟩
  · cases h : setSingleNamespace csv with
    | ok r => rfl
    | error f => rw [setSingleNamespace_error csv f h]; rfl
  · cases h : updateTheCSVManifest c csv annotations with
    | ok r => rfl
    | error f =>
      rcases updateTheCSVManifest_error c csv annotations f h with hf | hf <;> rw [hf] <;> rfl
  · intro hnone
    cases h : updateTheCSVManifest c csv annotations with
    | error f => rfl
    | ok out =>
      exfalso
      obtain ⟨ch, csv1, csv2, _, h1, h2, h3⟩ := updateTheCSVManifest_ok c csv annotations out h
      have hm1 := (applyOverride_keeps _ _ _ h1).2.2
      have hm2 : csv2.InstallModes = csv.InstallModes := by
        rcases h2 with ⟨_, _, hrw, _⟩ | ⟨_, heq, _⟩
        · rw [(rewriteIdentity_keeps _ _ _ hrw).1, hm1]
        · rw [heq, hm1]
      have hmiss := (setSingleNamespace_missing csv2).mpr (by rw [hm2]; exact hnone)
      rw [hmiss] at h3
      cases h3
  · intro pre post m hmodes hpre hm
    refine ⟨setSingleNamespace_found csv pre post m hmodes hpre hm, ?_⟩
    intro out h
    obtain ⟨ch, csv1, csv2, _, h1, h2, h3⟩ := updateTheCSVManifest_ok c csv annotations out h
    have hm1 := (applyOverride_keeps _ _ _ h1).2.2
    have hm2 : csv2.InstallModes = csv.InstallModes := by
      rcases h2 with ⟨_, _, hrw, _⟩ | ⟨_, heq, _⟩
      · rw [(rewriteIdentity_keeps _ _ _ hrw).1, hm1]
      · rw [heq, hm1]
    rw [setSingleNamespace_found csv2 pre post m (hm2.trans hmodes) hpre hm] at h3
    injection h3 with h3
    rw [← h3]

/-- C3, witness: on a manifest without a `SingleNamespace` install mode the
step panics and the transform returns neither a result nor an error value; on
the sample manifest, where `SingleNamespace` is the second entry and not
supported, the step sets it and leaves its neighbours as they were. -/
theorem single_namespace_install_mode_witness :
    (setSingleNamespace noSingleNamespaceCSV = .error .nilPointerDereference ∧
      isReturnedError (updateTheCSVManifest (sampleCmd stageChannel none) noSingleNamespaceCSV
        sampleAnnotations) = false ∧
      isOk (updateTheCSVManifest (sampleCmd stageChannel none) noSingleNamespaceCSV
        sampleAnnotations) = false) ∧
    setSingleNamespace sampleCSV =
      .ok { sampleCSV with InstallModes :=
        [{ ModeType := "OwnNamespace", Supported := true },
         { ModeType := "SingleNamespace", Supported := true },
         { ModeType := "AllNamespaces", Supported := false }] } :=
  have h := single_namespace_install_mode (sampleCmd stageChannel none) noSingleNamespaceCSV
    sampleAnnotations
  ⟨⟨h.1.mpr (by decide), h.2.2.1, h.2.2.2.1 (by decide)⟩,
   ((single_namespace_install_mode (sampleCmd stageChannel none) sampleCSV
      sampleAnnotations).2.2.2.2 [{ ModeType := "OwnNamespace", Supported := true }]
      [{ ModeType := "AllNamespaces", Supported := false }]
      { ModeType := "SingleNamespace", Supported := false } rfl (by decide) rfl).1⟩

/-! ## Override application with a missing target (lines 597-613) -/

/-- Without a deployment of the override's name the override step leaves the
manifest as it is. -/
theorem override_missing_deployment (config : addonConfig) (csv : ClusterServiceVersion)
    (ov : override) (hov : config.Override = some ov)
    (hnone : ∀ d ∈ csv.DeploymentSpecs, d.Name ≠ ov.Deployment.Name) :
    applyOverride config csv = .ok csv := by
  have hd : FindDeploymentByName csv.DeploymentSpecs ov.Deployment.Name = none := by
    unfold FindDeploymentByName
    exact (findFirst_eq_none _ _).mpr (fun d hd => by simpa using hnone d hd)
  unfold applyOverride
  simp only [hov, hd]

/-- C4: when the manifest has the deployment named by the override (`dep`, the
first of that name) and that deployment has no container of the override's
container name, the override step does not leave the manifest alone: line 611
dereferences the nil container pointer, and the transform ends in that panic. -/
theorem override_missing_container_panics (c : osdAddonReleaseCmd)
    (csv : ClusterServiceVersion) (annotations : metadataAnnotations) (ov : override)
    (dpre dpost : List StrategyDeploymentSpec) (dep : StrategyDeploymentSpec)
    (hov : c.addonConfig.Override = some ov)
    (hds : csv.DeploymentSpecs = dpre ++ dep :: dpost)
    (hdpre : ∀ d ∈ dpre, d.Name ≠ ov.Deployment.Name)
    (hdep : dep.Name = ov.Deployment.Name)
    (hnone : ∀ x ∈ dep.Containers, x.Name ≠ ov.Deployment.Container.Name) :
    applyOverride c.addonConfig csv = .error .nilPointerDereference ∧
    updateTheCSVManifest c csv annotations = .error .nilPointerDereference := by
  have hd : FindDeploymentByName csv.DeploymentSpecs ov.Deployment.Name =
      some (dpre.length, dep) := by
    unfold FindDeploymentByName
    rw [hds]
    exact findFirst_append_cons _ dpre dpost dep (fun d hd => by simpa using hdpre d hd)
      (by simpa using hdep)
  have hc : FindContainerByName dep.Containers ov.Deployment.Container.Name = none := by
    unfold FindContainerByName
    exact (findFirst_eq_none _ _).mpr (fun x hx => by simpa using hnone x hx)
  have happly : applyOverride c.addonConfig csv = .error .nilPointerDereference := by
    unfold applyOverride
    simp only [hov, hd, hc]
  refine ⟨happly, ?_⟩
  unfold updateTheCSVManifest
  cases hch : c.currentChannel with
  | none => rfl
  | some ch => simp only [happly]

/-- C4, witness: the operator deployment is there, its only container is named
`manager`, and the override names the container `rhmi-operator`. -/
theorem override_missing_container_panics_witness :
    updateTheCSVManifest (sampleCmd stageChannel (some sampleOverride)) otherContainerCSV
      sampleAnnotations = .error .nilPointerDereference :=
  (override_missing_container_panics (sampleCmd stageChannel (some sampleOverride))
    otherContainerCSV sampleAnnotations sampleOverride [] []
    { Name := "rhmi-operator", Containers := [{ sampleContainer with Name := "manager" }] }
    rfl rfl (by decide) rfl (by decide)).2

theorem findAddonLoop_eq_find (addonName : String) (l : List addonConfig) :
    findAddonLoop addonName l = l.find? (fun a => decide (a.Name = addonName)) := by
  induction l with
  | nil => rfl
  | cons a rest ih =>
    by_cases h : a.Name = addonName
    · simp [findAddonLoop, List.find?, h]
    · simp [findAddonLoop, List.find?, h, ih]

theorem findChannelLoop_eq_find (channelName : String) (l : List releaseChannel) :
    findChannelLoop channelName l = l.find? (fun c => decide (c.Name = channelName)) := by
  induction l with
  | nil => rfl
  | cons a rest ih =>
    by_cases h : a.Name = channelName
    · simp [findChannelLoop, List.find?, h]
    · simp [findChannelLoop, List.find?, h, ih]

theorem findAddon_eq_none (config : addons) (addonName : String) :
    findAddon config addonName = none ↔ ∀ a ∈ config.Addons, a.Name ≠ addonName := by
  unfold findAddon
  rw [findAddonLoop_eq_find]
  simp

theorem findAddon_eq_some (config : addons) (addonName : String) (a : addonConfig) :
    findAddon config addonName = some a ↔
      ∃ pre post, config.Addons = pre ++ a :: post ∧
        (∀ x ∈ pre, x.Name ≠ addonName) ∧ a.Name = addonName := by
  unfold findAddon
  rw [findAddonLoop_eq_find, List.find?_eq_some]
  constructor
  · rintro ⟨ha, pre, post, hl, hpre⟩
    exact ⟨pre, post, hl, fun x hx => by simpa using hpre x hx, by simpa using ha⟩
  · rintro ⟨pre, post, hl, hpre, ha⟩
    exact ⟨by simpa using ha, pre, post, hl, fun x hx => by simpa using hpre x hx⟩

theorem findChannel_eq_none (addon : addonConfig) (channelName : String) :
    findChannel addon channelName = none ↔ ∀ c ∈ addon.Channels, c.Name ≠ channelName := by
  unfold findChannel
  rw [findChannelLoop_eq_find]
  simp

theorem findChannel_eq_some (addon : addonConfig) (channelName : String) (ch : releaseChannel) :
    findChannel addon channelName = some ch ↔
      ∃ pre post, addon.Channels = pre ++ ch :: post ∧
        (∀ x ∈ pre, x.Name ≠ channelName) ∧ ch.Name = channelName := by
  unfold findChannel
  rw [findChannelLoop_eq_find, List.find?_eq_some]
  constructor
  · rintro ⟨ha, pre, post, hl, hpre⟩
    exact ⟨pre, post, hl, fun x hx => by simpa using hpre x hx, by simpa using ha⟩
  · rintro ⟨pre, post, hl, hpre, ha⟩
    exact ⟨by simpa using ha, pre, post, hl, fun x hx => by simpa using hpre x hx⟩

/-! ## Configuration resolution (lines 228-270) -/

/-- C6: for every catalog and flags, `resolve` (`findAddon`, then
`findChannel`) never panics; it returns an error exactly when no catalog entry
has the addon name or the first entry with that name has no channel with the
channel name; and it returns the pair `(addon, channel)` exactly when `addon`
is the first catalog entry of that name and `channel` the first channel of
`addon` of that channel name.  The catalog is a value that `resolve` only
reads. -/
theorem resolve_first_match (config : addons) (flags : osdAddonReleaseFlags) :
    isPanic (resolve config flags) = false ∧
    (isReturnedError (resolve config flags) = true ↔
      ((∀ a ∈ config.Addons, a.Name ≠ flags.addonName) ∨
        ∃ pre a post, config.Addons = pre ++ a :: post ∧
          (∀ x ∈ pre, x.Name ≠ flags.addonName) ∧ a.Name = flags.addonName ∧
          ∀ ch ∈ a.Channels, ch.Name ≠ flags.channel)) ∧
    (∀ addon channel, resolve config flags = .ok (addon, channel) ↔
      ∃ pre post cpre cpost,
        config.Addons = pre ++ addon :: post ∧
        (∀ x ∈ pre, x.Name ≠ flags.addonName) ∧ addon.Name = flags.addonName ∧
        addon.Channels = cpre ++ channel :: cpost ∧
        (∀ x ∈ cpre, x.Name ≠ flags.channel) ∧ channel.Name = flags.channel) := by
  cases ha : findAddon config flags.addonName with
  | none =>
    have hnone := (findAddon_eq_none config flags.addonName).mp ha
    have hres : resolve config flags = .error (.error ("can not find configuration for addon " ++
        flags.addonName ++ " in config file " ++ flags.addonsConfig)) := by
      unfold resolve; simp only [ha]
    refine ⟨by rw [hres]; rfl, ?_, ?_⟩
    · rw [hres]
      exact ⟨fun _ => Or.inl hnone, fun _ => rfl⟩
    · intro addon channel
      rw [hres]
      constructor
      · intro h; cases h
      · rintro ⟨pre, post, _, _, hl, _, hname, _⟩
        exact absurd hname (hnone addon (by rw [hl]; simp))
  | some a =>
    obtain ⟨pre, post, hl, hpre, hname⟩ := (findAddon_eq_some config flags.addonName a).mp ha
    have huniq : ∀ (pre2 : List addonConfig) (b : addonConfig) (post2 : List addonConfig),
        config.Addons = pre2 ++ b :: post2 → (∀ x ∈ pre2, x.Name ≠ flags.addonName) →
        b.Name = flags.addonName → b = a := by
      intro pre2 b post2 hl2 hpre2 hb
      have hb2 := (findAddon_eq_some config flags.addonName b).mpr ⟨pre2, post2, hl2, hpre2, hb⟩
      rw [ha] at hb2
      exact (Option.some.inj hb2).symm
    cases hc : findChannel a flags.channel with
    | none =>
      have hcnone := (findChannel_eq_none a flags.channel).mp hc
      have hres : resolve config flags = .error (.error ("can not find channel " ++
          flags.channel ++ " for addon " ++ flags.addonName ++ " in config file " ++
          flags.addonsConfig)) := by
        unfold resolve; simp only [ha, hc]
      refine ⟨by rw [hres]; rfl, ?_, ?_⟩
      · rw [hres]
        exact ⟨fun _ => Or.inr ⟨pre, a, post, hl, hpre, hname, hcnone⟩, fun _ => rfl⟩
      · intro addon channel
        rw [hres]
        constructor
        · intro h; cases h
        · rintro ⟨pre2, post2, cpre, cpost, hl2, hpre2, hname2, hcl, _, hcname⟩
          have := huniq pre2 addon post2 hl2 hpre2 hname2
          subst this
          exact absurd hcname (hcnone channel (by rw [hcl]; simp))
    | some ch =>
      obtain ⟨cpre, cpost, hcl, hcpre, hcname⟩ := (findChannel_eq_some a flags.channel ch).mp hc
      have hres : resolve config flags = .ok (a, ch) := by
        unfold resolve; simp only [ha, hc]
      refine ⟨by rw [hres]; rfl, ?_, ?_⟩
      · rw [hres]
        constructor
        · intro h; cases h
        · rintro (hnone | ⟨pre2, b, post2, hl2, hpre2, hb, hbc⟩)
          · exact absurd hname (hnone a (by rw [hl]; simp))
          · have := huniq pre2 b post2 hl2 hpre2 hb
            subst this
            exact absurd hcname (hbc ch (by rw [hcl]; simp))
      · intro addon channel
        rw [hres]
        constructor
        · intro h
          injection h with h
          injection h with h1 h2
          subst h1; subst h2
          exact ⟨pre, post, cpre, cpost, hl, hpre, hname, hcl, hcpre, hcname⟩
        · rintro ⟨pre2, post2, cpre2, cpost2, hl2, hpre2, hname2, hcl2, hcpre2, hcname2⟩
          have := huniq pre2 addon post2 hl2 hpre2 hname2
          subst this
          have hc2 := (findChannel_eq_some addon flags.channel channel).mpr
            ⟨cpre2, cpost2, hcl2, hcpre2, hcname2⟩
          rw [hc] at hc2
          rw [Option.some.inj hc2]

/-- C6, witness: in a catalog where the addon name occurs twice the first entry
of that name is returned, with its `edge` channel. -/
theorem resolve_first_match_witness :
    resolve sampleCatalog (sampleFlags "edge") =
      .ok (sampleAddon (some sampleOverride), edgeChannel) :=
  ((resolve_first_match sampleCatalog (sampleFlags "edge")).2.2
    (sampleAddon (some sampleOverride)) edgeChannel).mpr
    ⟨[{ sampleAddon none with Name := "other-addon" }], [{ sampleAddon none with Channels := [] }],
      [stageChannel], [stableChannel], rfl, by decide, rfl, rfl, by decide, rfl⟩

/-! ## Version policy gate (lines 341-347) -/

/-- C7: for every version and every non-nil channel, the gate at the start of
`run` rejects, with the error of line 346, exactly when the version is a
pre-release and the channel's `AllowPreRelease` is false, and accepts in every
other case; so a pre-release is accepted when the flag is true and a version
that is no pre-release is accepted on every channel; a rejection is the result
of `run`, with no effect performed. -/
theorem pre_release_gate (flags : osdAddonReleaseFlags) (version : RHMIVersion)
    (config : addonConfig) (channel : releaseChannel) (w : World) :
    (preReleaseGate ⟨flags, version, config, some channel⟩ =
        .error (.error (preReleaseMessage version channel)) ↔
      (version.IsPreRelease = true ∧ channel.AllowPreRelease = false)) ∧
    (preReleaseGate ⟨flags, version, config, some channel⟩ = .ok channel ↔
      ¬ (version.IsPreRelease = true ∧ channel.AllowPreRelease = false)) ∧
    (version.IsPreRelease = true → channel.AllowPreRelease = true →
      preReleaseGate ⟨flags, version, config, some channel⟩ = .ok channel) ∧
    (version.IsPreRelease = false →
      preReleaseGate ⟨flags, version, config, some channel⟩ = .ok channel) ∧
    (version.IsPreRelease = true → channel.AllowPreRelease = false →
      run ⟨flags, version, config, some channel⟩ w =
        ([], .error (.error (preReleaseMessage version channel)))) := by
  unfold run preReleaseGate preReleaseMessage
  cases hp : version.IsPreRelease <;> cases ha : channel.AllowPreRelease <;>
    simp [quiet, Step.andThen, hp, ha]

/-- C7, witness: the pre-release `1.2.3-rc1` is rejected on the stable channel
(which does not allow pre-releases), before any effect, and accepted on the
stage channel (which does). -/
theorem pre_release_gate_witness :
    run (preReleaseCmd stableChannel) goodWorld =
      ([], .error (.error (preReleaseMessage preReleaseVersion stableChannel))) ∧
    preReleaseGate (preReleaseCmd stageChannel) = .ok stageChannel :=
  ⟨(pre_release_gate (sampleFlags "stable") preReleaseVersion (sampleAddon none) stableChannel
      goodWorld).2.2.2.2 (by decide) (by decide),
   (pre_release_gate (sampleFlags "stage") preReleaseVersion (sampleAddon none) stageChannel
      goodWorld).2.2.1 (by decide) (by decide)⟩

theorem rewriteAnnotationStep_apply (m : String → Option String) (key k : String) :
    rewriteAnnotationStep m key k = if k = key then rewrittenValue (m k) else m k := by
  unfold rewriteAnnotationStep rewrittenValue
  by_cases hk : k = key
  · subst hk
    by_cases v1 : m k = some "managed-api-service"
    · simp [v1, mapSet]
    · by_cases v2 : m k = some "stable"
      · simp [v2, mapSet]
      · simp [v1, v2]
  · by_cases v1 : m key = some "managed-api-service"
    · simp [v1, mapSet, hk]
    · by_cases v2 : m key = some "stable"
      · simp [v2, mapSet, hk]
      · simp [v1, v2, hk]

theorem rewriteAnnotations_apply (a : metadataAnnotations) (k : String) :
    (rewriteAnnotations a).Annotations k = expectedValue a.Annotations k := by
  unfold rewriteAnnotations expectedValue isBundleKey annotationsToBeUpdated
  simp only [List.foldl_cons, List.foldl_nil, rewriteAnnotationStep_apply]
  unfold rewrittenValue
  by_cases h1 : k = "operators.operatorframework.io.bundle.package.v1"
  · subst h1
    simp
  · by_cases h2 : k = "operators.operatorframework.io.bundle.channels.v1"
    · subst h2
      simp
    · by_cases h3 : k = "operators.operatorframework.io.bundle.channel.default.v1"
      · subst h3
        simp
      · simp [h1, h2, h3]

/-! ## Bundle annotation rewrite (lines 615-632) -/

/-- C8: for every annotations map and every key `k`, the loop of lines 624-631
leaves under `k` the value `managed-api-service-internal` when `k` is one of
the three bundle keys and held exactly `managed-api-service`, the value `edge`
when `k` is one of the three keys and held exactly `stable`, and the old value
in every other case (another key, another value, a key that is absent), each
key on its own; no key is added or removed; and a completed transform hands
the rewritten map to the writer when the channel is `edge` and the addon
`managed-api-service`, the unchanged map for every other pair. -/
theorem bundle_annotations_rewrite (c : osdAddonReleaseCmd) (csv : ClusterServiceVersion)
    (a : metadataAnnotations) (k : String) :
    (rewriteAnnotations a).Annotations k = expectedValue a.Annotations k ∧
    (isBundleKey k → a.Annotations k = some "managed-api-service" →
      (rewriteAnnotations a).Annotations k = some "managed-api-service-internal") ∧
    (isBundleKey k → a.Annotations k = some "stable" →
      (rewriteAnnotations a).Annotations k = some "edge") ∧
    (¬ (isBundleKey k ∧
        (a.Annotations k = some "managed-api-service" ∨ a.Annotations k = some "stable")) →
      (rewriteAnnotations a).Annotations k = a.Annotations k) ∧
    ((rewriteAnnotations a).Annotations k).isSome = (a.Annotations k).isSome ∧
    (∀ currentChannel out, c.currentChannel = some currentChannel →
      updateTheCSVManifest c csv a = .ok out →
      out.annotations =
        if currentChannel.Name = "edge" ∧ c.addonConfig.Name = "managed-api-service" then
          rewriteAnnotations a
        else a) := by
  have happly := rewriteAnnotations_apply a k
  refine ⟨happly, ?_, ?_, ?_, ?_, ?_⟩
  · intro hk hv
    rw [happly]
    simp [expectedValue, hk, hv]
  · intro hk hv
    rw [happly]
    simp [expectedValue, hk, hv]
  · intro hnot
    rw [happly]
    unfold expectedValue
    by_cases hk : isBundleKey k
    · have h1 : a.Annotations k ≠ some "managed-api-service" := fun h => hnot ⟨hk, Or.inl h⟩
      have h2 : a.Annotations k ≠ some "stable" := fun h => hnot ⟨hk, Or.inr h⟩
      simp [h1, h2]
    · simp [hk]
  · rw [happly]
    unfold expectedValue
    split
    · rename_i h; rw [h.2]; rfl
    · split
      · rename_i h; rw [h.2]; rfl
      · rfl
  · intro currentChannel out hch hout
    obtain ⟨ch, csv1, csv2, hch2, _, h2, _⟩ := updateTheCSVManifest_ok c csv a out hout
    rw [hch] at hch2
    cases hch2
    rcases h2 with ⟨he, ha, _, hann⟩ | ⟨hne, _, hann⟩
    · rw [hann, if_pos ⟨he, ha⟩]
    · rw [hann, if_neg hne]

/-- C8, witness: on the sample annotations the package name becomes
`managed-api-service-internal`, the channel list `stable` becomes `edge`, and
the transform on the edge channel hands on the rewritten map. -/
theorem bundle_annotations_rewrite_witness :
    (rewriteAnnotations sampleAnnotations).Annotations
        "operators.operatorframework.io.bundle.package.v1" =
      some "managed-api-service-internal" ∧
    (rewriteAnnotations sampleAnnotations).Annotations
        "operators.operatorframework.io.bundle.channels.v1" = some "edge" ∧
    (rewriteAnnotations sampleAnnotations).Annotations
        "operators.operatorframework.io.bundle.mediatype.v1" = some "registry+v1" ∧
    (updateTheCSVManifest (sampleCmd edgeChannel none) sampleCSV sampleAnnotations).map
        (fun out => out.annotations.Annotations "operators.operatorframework.io.bundle.channels.v1")
      = .ok (some "edge") :=
  ⟨(bundle_annotations_rewrite (sampleCmd edgeChannel none) sampleCSV sampleAnnotations
      "operators.operatorframework.io.bundle.package.v1").2.1 (by decide) (by decide),
   (bundle_annotations_rewrite (sampleCmd edgeChannel none) sampleCSV sampleAnnotations
      "operators.operatorframework.io.bundle.channels.v1").2.2.1 (by decide) (by decide),
   (bundle_annotations_rewrite (sampleCmd edgeChannel none) sampleCSV sampleAnnotations
      "operators.operatorframework.io.bundle.mediatype.v1").2.2.2.1 (by decide),
   by decide⟩

theorem andThen_trace {α β : Type} (x : Step α) (f : α → Step β)
    (hx : ∀ e ∈ x.1, isPreparation e = true) (hf : ∀ a, ∀ e ∈ (f a).1, isPreparation e = true) :
    ∀ e ∈ (x.andThen f).1, isPreparation e = true := by
  intro e he
  unfold Step.andThen at he
  split at he
  · exact hx e he
  · rename_i a _
    rcases List.mem_append.mp he with h | h
    · exact hx e h
    · exact hf a e h

theorem quiet_trace {α : Type} (r : Except Failure α) :
    ∀ e ∈ (quiet r).1, isPreparation e = true := by
  intro e he
  simp [quiet] at he

theorem call_trace {α : Type} (eff : Effect) (r : Except String α)
    (h : isPreparation eff = true) : ∀ e ∈ (call eff r).1, isPreparation e = true := by
  intro e he
  simp [call] at he
  rw [he]; exact h

theorem copyTheOLMBundles_trace (c : osdAddonReleaseCmd) (w : World) :
    ∀ e ∈ (copyTheOLMBundles c w).1, isPreparation e = true := by
  unfold copyTheOLMBundles
  split
  · exact quiet_trace _
  · dsimp only
    refine andThen_trace _ _ (call_trace _ _ ?_) (fun _ => ?_)
    · rfl
    refine andThen_trace _ _ (call_trace _ _ ?_) (fun _ => ?_)
    · rfl
    split
    · exact quiet_trace _
    · exact quiet_trace _
    · refine andThen_trace _ _ (call_trace _ _ ?_) (fun _ => quiet_trace _)
      rfl

theorem updateTheCSVManifestFiles_trace (c : osdAddonReleaseCmd) (w : World) :
    ∀ e ∈ (updateTheCSVManifestFiles c w).1, isPreparation e = true := by
  unfold updateTheCSVManifestFiles
  split
  · exact quiet_trace _
  · refine andThen_trace _ _ (quiet_trace _) (fun _ => ?_)
    refine andThen_trace _ _ (quiet_trace _) (fun _ => ?_)
    refine andThen_trace _ _ (quiet_trace _) (fun _ => ?_)
    refine andThen_trace _ _ (call_trace _ _ ?_) (fun _ => ?_)
    · rfl
    refine andThen_trace _ _ (call_trace _ _ ?_) (fun _ => quiet_trace _)
    rfl

theorem copyAddonImageSet_trace (c : osdAddonReleaseCmd) (w : World) :
    ∀ e ∈ (copyAddonImageSet c w).1, isPreparation e = true := by
  unfold copyAddonImageSet
  refine andThen_trace _ _ (quiet_trace _) (fun _ => ?_)
  refine andThen_trace _ _ (quiet_trace _) (fun _ => ?_)
  refine andThen_trace _ _ (call_trace _ _ ?_) (fun _ => quiet_trace _)
  rfl

theorem produceRelease_trace (c : osdAddonReleaseCmd) (w : World) :
    ∀ e ∈ (produceRelease c w).1, isPreparation e = true := by
  unfold produceRelease
  split
  · refine andThen_trace _ _ (copyTheOLMBundles_trace c w) (fun _ => ?_)
    refine andThen_trace _ _ (call_trace _ _ ?_) (fun _ => ?_)
    · rfl
    exact andThen_trace _ _ (updateTheCSVManifestFiles_trace c w) (fun _ => quiet_trace _)
  · split
    · refine andThen_trace _ _ (copyAddonImageSet_trace c w) (fun _ => ?_)
      refine andThen_trace _ _ (call_trace _ _ ?_) (fun _ => quiet_trace _)
      rfl
    · exact quiet_trace _

theorem preparation_no_publish (t : List Effect) (h : ∀ e ∈ t, isPreparation e = true) :
    pushes t = false ∧ createsMergeRequest t = false ∧ readsStatus t = false := by
  unfold pushes createsMergeRequest readsStatus
  refine ⟨?_, ?_, ?_⟩ <;>
  · rw [List.any_eq_false]
    intro e he
    have := h e he
    cases e <;> simp_all [isPreparation]

theorem mainRef : NewBranchReferenceName managedTenantsMainBranch = "refs/heads/main" := by
  decide

theorem produceRelease_other (c : osdAddonReleaseCmd) (w : World)
    (h1 : c.flags.channel ≠ "stage") (h2 : c.flags.channel ≠ "edge")
    (h3 : c.flags.channel ≠ "stable") :
    produceRelease c w = ([], .error (.error ("channel provided is " ++ c.flags.channel ++
      " instead of stage, edge or stable"))) := by
  unfold produceRelease
  simp [h1, h2, h3, quiet]

theorem andThen_ok {α β : Type} (x : Step α) (f : α → Step β)
    (h : isOk (x.andThen f).2 = true) : ∃ a, x.2 = .ok a ∧ isOk (f a).2 = true := by
  unfold Step.andThen at h
  split at h
  · simp [isOk] at h
  · rename_i a ha
    exact ⟨a, ha, h⟩

theorem produceRelease_ok (c : osdAddonReleaseCmd) (w : World)
    (h : isOk (produceRelease c w).2 = true) :
    (c.flags.channel = "stage" ∨ c.flags.channel = "edge" ∨ c.flags.channel = "stable") ∧
    (c.flags.channel = "stage" ∨ c.flags.channel = "edge" →
      isOk (copyTheOLMBundles c w).2 = true ∧ w.addGlob = .ok () ∧
      isOk (updateTheCSVManifestFiles c w).2 = true) ∧
    (¬ (c.flags.channel = "stage" ∨ c.flags.channel = "edge") →
      isOk (copyAddonImageSet c w).2 = true ∧ w.add = .ok ()) := by
  unfold produceRelease at h
  split at h
  · rename_i hse
    obtain ⟨a, ha, h⟩ := andThen_ok _ _ h
    obtain ⟨b, hb, h⟩ := andThen_ok _ _ h
    obtain ⟨d, hd, _⟩ := andThen_ok _ _ h
    refine ⟨by tauto, fun _ => ⟨by rw [ha]; rfl, ?_, by rw [hd]; rfl⟩, fun hn => absurd hse hn⟩
    cases hg : w.addGlob with
    | ok u => rfl
    | error e => simp [call, liftErr, hg] at hb
  · rename_i hse
    split at h
    · rename_i hst
      obtain ⟨a, ha, h⟩ := andThen_ok _ _ h
      obtain ⟨b, hb, _⟩ := andThen_ok _ _ h
      refine ⟨by tauto, fun hn => absurd hn hse, fun _ => ⟨by rw [ha]; rfl, ?_⟩⟩
      cases hg : w.add with
      | ok u => rfl
      | error e => simp [call, liftErr, hg] at hb
    · simp [quiet, isOk] at h

/-! ## Step order of `run` (lines 341-479) -/

/-- C9: in every execution of `run` in which the branch is pushed to the fork
or a merge request is created, the head of the clone was the main branch, the
channel pointer was set and the pre-release gate accepted the version, the
channel was `stage`, `edge` or `stable`, the production of the release (for
`stage` and `edge`: the manifest transform) and the commit returned no error,
and the status read after the commit was empty.  And a head that is not main,
a rejected pre-release, any other channel name, or a non-empty status read
after the commit each make `run` return an error, with no push and no merge
request. -/
theorem publish_only_after_checks (c : osdAddonReleaseCmd) (w : World) :
    ((pushes (run c w).1 = true ∨ createsMergeRequest (run c w).1 = true) →
      w.head = .ok "refs/heads/main" ∧
      (∃ ch, c.currentChannel = some ch ∧
        ¬ (c.version.IsPreRelease = true ∧ ch.AllowPreRelease = false)) ∧
      (c.flags.channel = "stage" ∨ c.flags.channel = "edge" ∨ c.flags.channel = "stable") ∧
      isOk (produceRelease c w).2 = true ∧
      (c.flags.channel = "stage" ∨ c.flags.channel = "edge" →
        isOk (updateTheCSVManifestFiles c w).2 = true) ∧
      w.commit = .ok () ∧
      w.status = .ok []) ∧
    (∀ name, w.head = .ok name → name ≠ "refs/heads/main" →
      isReturnedError (run c w).2 = true ∧
      pushes (run c w).1 = false ∧ createsMergeRequest (run c w).1 = false) ∧
    (∀ ch, c.currentChannel = some ch → c.version.IsPreRelease = true →
      ch.AllowPreRelease = false →
      isReturnedError (run c w).2 = true ∧
      pushes (run c w).1 = false ∧ createsMergeRequest (run c w).1 = false) ∧
    (c.flags.channel ≠ "stage" → c.flags.channel ≠ "edge" → c.flags.channel ≠ "stable" →
      isReturnedError (run c w).2 = true ∧
      pushes (run c w).1 = false ∧ createsMergeRequest (run c w).1 = false) ∧
    (∀ s, readsStatus (run c w).1 = true → w.status = .ok s → s ≠ [] →
      isReturnedError (run c w).2 = true ∧
      pushes (run c w).1 = false ∧ createsMergeRequest (run c w).1 = false) := by
  have hprep := preparation_no_publish _ (produceRelease_trace c w)
  have hother := produceRelease_other c w
  have hok := produceRelease_ok c w
  unfold pushes createsMergeRequest readsStatus at hprep
  obtain ⟨hp1, hp2, hp3⟩ := hprep
  unfold run preReleaseGate commitAndPublish pushes createsMergeRequest readsStatus
  rw [mainRef]
  cases hch : c.currentChannel with
  | none => simp [quiet, Step.andThen, isReturnedError]
  | some ch =>
    by_cases hgate : c.version.IsPreRelease = true ∧ ch.AllowPreRelease = false
    · simp [quiet, Step.andThen, isReturnedError, hgate.1, hgate.2]
    · have hgate2 : (c.version.IsPreRelease && !ch.AllowPreRelease) = false := by
        cases h1 : c.version.IsPreRelease <;> cases h2 : ch.AllowPreRelease <;> simp_all
      simp only [hgate2]
      cases hhead : w.head with
      | error e => simp [quiet, Step.andThen, isReturnedError, liftErr, hgate]
      | ok name =>
        by_cases hmain : name = "refs/heads/main"
        · subst hmain
          cases hwt : w.worktree with
          | error e => simp [quiet, Step.andThen, isReturnedError, liftErr, hgate, call]
          | ok u1 =>
            cases hcb : w.checkoutBranch with
            | error e => simp [quiet, Step.andThen, isReturnedError, liftErr, hgate, call]
            | ok u2 =>
              rcases hpr : produceRelease c w with ⟨t, r⟩
              rw [hpr] at hp1 hp2 hp3 hok hother
              cases r with
              | error f =>
                have hf : c.flags.channel ≠ "stage" → c.flags.channel ≠ "edge" →
                    c.flags.channel ≠ "stable" → isReturnedError (Except.error f : Except Failure Unit) = true := by
                  intro h1 h2 h3
                  have := hother h1 h2 h3
                  injection this with _ h5
                  injection h5 with h5
                  rw [h5]; rfl
                simp only [] at hp1 hp2 hp3
                simp [quiet, Step.andThen, isReturnedError, liftErr, hgate, call, hp1, hp2, hp3]
                exact ⟨fun h1 h2 => absurd ⟨h1, h2⟩ hgate, fun a b d => hf a b d⟩
              | ok u3 =>
                have hok2 := hok rfl
                have hchan := hok2.1
                have hupd : c.flags.channel = "stage" ∨ c.flags.channel = "edge" →
                    isOk (updateTheCSVManifestFiles c w).2 = true := fun h => (hok2.2.1 h).2.2
                cases hcommit : w.commit with
                | error e =>
                  simp [quiet, Step.andThen, isReturnedError, liftErr, hgate, call, hp1, hp2, hp3]
                | ok u4 =>
                  cases hstatus : w.status with
                  | error e =>
                    simp [quiet, Step.andThen, isReturnedError, liftErr, hgate, call, hp1, hp2, hp3]
                  | ok st =>
                    cases st with
                    | cons x xs =>
                      simp [quiet, Step.andThen, isReturnedError, liftErr, hgate, call, hp1, hp2, hp3]
                    | nil =>
                      have hgate3 : c.version.IsPreRelease = true → ch.AllowPreRelease = true := by
                        intro h
                        cases h2 : ch.AllowPreRelease
                        · exact absurd ⟨h, h2⟩ hgate
                        · rfl
                      have hchan2 : ¬ c.flags.channel = "stage" → ¬ c.flags.channel = "edge" →
                          c.flags.channel = "stable" := by
                        intro h1 h2
                        rcases hchan with h | h | h
                        · exact absurd h h1
                        · exact absurd h h2
                        · exact h
                      have hu3 : isOk (Except.ok u3 : Except Failure Unit) = true := rfl
                      cases hpush : w.push <;> cases hproj : w.getProject <;>
                        cases hmr : w.createMergeRequest <;> cases hback : w.checkoutMain <;>
                        simp [quiet, Step.andThen, isReturnedError, liftErr, call, hp1, hp2,
                          hp3, hchan, hupd, hgate3, hchan2, hu3] <;>
                        exact ⟨⟨hgate3, hupd⟩, hgate3, hchan2⟩
        · simp [quiet, Step.andThen, isReturnedError, liftErr, hmain, hgate]

/-- C9, witness: the stage release in a world where every call succeeds is
pushed, so every check passed; the same release with a file left uncommitted
returns an error without a push. -/
theorem publish_only_after_checks_witness :
    (pushes (run (sampleCmd stageChannel none) goodWorld).1 = true ∧
      goodWorld.head = .ok "refs/heads/main" ∧ goodWorld.status = .ok []) ∧
    (isReturnedError (run (sampleCmd stageChannel none)
        { goodWorld with status := .ok ["?? stray.txt"] }).2 = true ∧
      pushes (run (sampleCmd stageChannel none)
        { goodWorld with status := .ok ["?? stray.txt"] }).1 = false) :=
  have h1 := (publish_only_after_checks (sampleCmd stageChannel none) goodWorld).1
    (Or.inl (by decide))
  have h2 := (publish_only_after_checks (sampleCmd stageChannel none)
    { goodWorld with status := .ok ["?? stray.txt"] }).2.2.2.2 ["?? stray.txt"]
    (by decide) rfl (by decide)
  ⟨⟨by decide, h1.1, h1.2.2.2.2.2.2⟩, h2.1, h2.2.1⟩

/-! ## Image-set promotion (lines 529-575) -/

/-- C10: for every channel, version and staged image set (the latest staging
file found and loaded), the image set that `getAddonImageSet` marshals has the
name `<Directory>.v<version>` whatever the staged name was, and the staged
index image and related images; `getAddonImageSet` returns its marshalled
form; and when marshalling and writing succeed `copyAddonImageSet` writes
those bytes and returns the relative path
`addons/<Directory>/addonimagesets/<Environment>/<Directory>.v<version>.yaml`. -/
theorem image_set_promotion (c : osdAddonReleaseCmd) (w : World) (channel : releaseChannel)
    (staged : addonImageSet) (file : String)
    (hch : c.currentChannel = some channel)
    (hfile : w.lastFileInDir = .ok file)
    (hload : w.loadImageSet = .ok staged) :
    getAddonImageSetName c = .ok (channel.Directory ++ ".v" ++ c.version.String) ∧
    promotedImageSet c w =
      .ok { IndexImage := staged.IndexImage,
            Name := channel.Directory ++ ".v" ++ c.version.String,
            RelatedImages := staged.RelatedImages } ∧
    getAddonImageSet c w =
      liftErr (w.marshal { IndexImage := staged.IndexImage,
                           Name := channel.Directory ++ ".v" ++ c.version.String,
                           RelatedImages := staged.RelatedImages }) ∧
    getDestAddonImageSetPath c =
      .ok ("addons/" ++ channel.Directory ++ "/addonimagesets/" ++ channel.Environment ++ "/" ++
        (channel.Directory ++ ".v" ++ c.version.String) ++ ".yaml") ∧
    (∀ bytes,
      w.marshal { IndexImage := staged.IndexImage,
                  Name := channel.Directory ++ ".v" ++ c.version.String,
                  RelatedImages := staged.RelatedImages } = .ok bytes →
      w.writeFile = .ok () →
      copyAddonImageSet c w =
        ([.writeImageSet ("addons/" ++ channel.Directory ++ "/addonimagesets/" ++
            channel.Environment ++ "/" ++ (channel.Directory ++ ".v" ++ c.version.String) ++
            ".yaml") bytes],
         .ok ("addons/" ++ channel.Directory ++ "/addonimagesets/" ++ channel.Environment ++
            "/" ++ (channel.Directory ++ ".v" ++ c.version.String) ++ ".yaml"))) := by
  have hname : getAddonImageSetName c = .ok (channel.Directory ++ ".v" ++ c.version.String) := by
    unfold getAddonImageSetName; simp only [hch]
  have hprom : promotedImageSet c w =
      .ok { IndexImage := staged.IndexImage,
            Name := channel.Directory ++ ".v" ++ c.version.String,
            RelatedImages := staged.RelatedImages } := by
    unfold promotedImageSet getLatestStageAddonImageSetPath
    simp only [hch, hfile, hload, hname, liftErr]
  have hget : getAddonImageSet c w =
      liftErr (w.marshal { IndexImage := staged.IndexImage,
                           Name := channel.Directory ++ ".v" ++ c.version.String,
                           RelatedImages := staged.RelatedImages }) := by
    unfold getAddonImageSet
    simp only [hprom]
  have hdest : getDestAddonImageSetPath c =
      .ok ("addons/" ++ channel.Directory ++ "/addonimagesets/" ++ channel.Environment ++ "/" ++
        (channel.Directory ++ ".v" ++ c.version.String) ++ ".yaml") := by
    unfold getDestAddonImageSetPath
    simp only [hch, hname]
  refine ⟨hname, hprom, hget, hdest, ?_⟩
  intro bytes hm hw
  unfold copyAddonImageSet
  simp [hget, hdest, hm, hw, liftErr, quiet, call, Step.andThen]

/-- C10, witness: the staged image set `rhoams.v1.2.3-rc2` is promoted to the
stable channel as `rhoams.v1.2.3`, written to
`addons/rhoams/addonimagesets/production/rhoams.v1.2.3.yaml`. -/
theorem image_set_promotion_witness :
    promotedImageSet (sampleCmd stableChannel none) goodWorld =
      .ok { IndexImage := "quay.io/osd-addons/rhoams-index@sha256:0a1b",
            Name := "rhoams.v1.2.3",
            RelatedImages := ["quay.io/integreatly/managed-api-service:1.2.3"] } ∧
    (copyAddonImageSet (sampleCmd stableChannel none) goodWorld).2 =
      .ok "addons/rhoams/addonimagesets/production/rhoams.v1.2.3.yaml" :=
  have h := image_set_promotion (sampleCmd stableChannel none) goodWorld stableChannel
    { IndexImage := "quay.io/osd-addons/rhoams-index@sha256:0a1b", Name := "rhoams.v1.2.3-rc2",
      RelatedImages := ["quay.io/integreatly/managed-api-service:1.2.3"] }
    "addons/rhoams/addonimagesets/stage/rhoams.v1.2.3-rc2.yaml" rfl rfl rfl
  ⟨h.2.1.trans (by decide), (congrArg Prod.snd (h.2.2.2.2 _ rfl rfl)).trans (by decide)⟩

/-! ## Defaults of the origin and fork flags (lines 147-226) -/

theorem setField_other (f : osdAddonReleaseFlags) (field : FlagField) (v : String) :
    (field ≠ .managedTenantsOrigin →
      (setField f field v).managedTenantsOrigin = f.managedTenantsOrigin) ∧
    (field ≠ .managedTenantsFork →
      (setField f field v).managedTenantsFork = f.managedTenantsFork) := by
  cases field <;> simp [setField]

theorem init_targets (d : FlagDef) (hd : d ∈ init.registered) :
    (d.target = some .managedTenantsOrigin → d.name = "managed-tenants-origin") ∧
    (d.target = some .managedTenantsFork → d.name = "managed-tenants-fork") := by
  have hall : ∀ x ∈ init.registered,
      (x.target = some .managedTenantsOrigin → x.name = "managed-tenants-origin") ∧
      (x.target = some .managedTenantsFork → x.name = "managed-tenants-fork") := by
    decide
  exact hall d hd

theorem parseOne_keeps (f g : osdAddonReleaseFlags) (arg : String × String)
    (h : parseOne init.registered f arg = .ok g) :
    (arg.1 ≠ "managed-tenants-origin" → g.managedTenantsOrigin = f.managedTenantsOrigin) ∧
    (arg.1 ≠ "managed-tenants-fork" → g.managedTenantsFork = f.managedTenantsFork) := by
  unfold parseOne at h
  split at h
  · cases h
  · rename_i d hfind
    have hmem : d ∈ init.registered := List.mem_of_find?_eq_some hfind
    have hname : d.name = arg.1 := by
      have := List.find?_some hfind
      simpa using this
    have ht := init_targets d hmem
    split at h
    · injection h with h
      subst h
      exact ⟨fun _ => rfl, fun _ => rfl⟩
    · rename_i field hfield
      injection h with h
      subst h
      constructor
      · intro hne
        apply (setField_other f field arg.2).1
        intro hf
        exact hne (hname ▸ ht.1 (by rw [hfield, hf]))
      · intro hne
        apply (setField_other f field arg.2).2
        intro hf
        exact hne (hname ▸ ht.2 (by rw [hfield, hf]))

theorem parseArgs_keeps (args : List (String × String)) (f g : osdAddonReleaseFlags)
    (h : parseArgs init.registered f args = .ok g) :
    ((∀ a ∈ args, a.1 ≠ "managed-tenants-origin") →
      g.managedTenantsOrigin = f.managedTenantsOrigin) ∧
    ((∀ a ∈ args, a.1 ≠ "managed-tenants-fork") →
      g.managedTenantsFork = f.managedTenantsFork) := by
  induction args generalizing f with
  | nil =>
    simp only [parseArgs] at h
    injection h with h
    subst h
    exact ⟨fun _ => rfl, fun _ => rfl⟩
  | cons a rest ih =>
    unfold parseArgs at h
    split at h
    · cases h
    · rename_i f2 hone
      have h1 := parseOne_keeps f f2 a hone
      have h2 := ih f2 h
      constructor
      · intro hall
        rw [h2.1 (fun x hx => hall x (List.mem_cons_of_mem a hx)),
          h1.1 (hall a (List.mem_cons_self a rest))]
      · intro hall
        rw [h2.2 (fun x hx => hall x (List.mem_cons_of_mem a hx)),
          h1.2 (hall a (List.mem_cons_self a rest))]

/-- C11: the defaults of `managed-tenants-origin` and `managed-tenants-fork`
are fixed when `init` runs, before any argument is parsed, from the flags value
that `init` built out of the zero value of line 149: its channel field
then holds `stage` (the default that the registration of `channel` stored), and
the empty string of the zero value would choose the same branch, so the branch
for `stable` is not taken and the registered defaults are
`service/managed-tenants-bundles` and `integreatly-qe/managed-tenants-bundles`.
For every value passed as `--channel`, `stable` included, the flag structure
after parsing carries that channel and these two values, and further
arguments that do not set the origin (the fork) explicitly leave its value. -/
theorem init_defaults_ignore_channel (channel : String) (args : List (String × String)) :
    initBeforeDefaults.flags.channel = "stage" ∧
    managedTenantsDefaults initBeforeDefaults.flags.channel =
      ("service/managed-tenants-bundles", "integreatly-qe/managed-tenants-bundles") ∧
    managedTenantsDefaults zeroFlags.channel =
      ("service/managed-tenants-bundles", "integreatly-qe/managed-tenants-bundles") ∧
    defaultOf init "managed-tenants-origin" = some "service/managed-tenants-bundles" ∧
    defaultOf init "managed-tenants-fork" = some "integreatly-qe/managed-tenants-bundles" ∧
    flagsFor [("channel", channel)] =
      .ok { init.flags with channel := channel,
                            managedTenantsOrigin := "service/managed-tenants-bundles",
                            managedTenantsFork := "integreatly-qe/managed-tenants-bundles" } ∧
    ((∀ a ∈ args, a.1 ≠ "managed-tenants-origin") →
      ∀ f, flagsFor (("channel", channel) :: args) = .ok f →
        f.managedTenantsOrigin = "service/managed-tenants-bundles") ∧
    ((∀ a ∈ args, a.1 ≠ "managed-tenants-fork") →
      ∀ f, flagsFor (("channel", channel) :: args) = .ok f →
        f.managedTenantsFork = "integreatly-qe/managed-tenants-bundles") := by
  refine ⟨by decide, by decide, by decide, by decide, by decide, ?_, ?_, ?_⟩
  · unfold flagsFor
    simp only [parseArgs]
    have hone : parseOne init.registered init.flags ("channel", channel) =
        .ok (setField init.flags .channel channel) := by
      unfold parseOne
      have hfind : init.registered.find? (fun d => d.name = "channel") =
          some { name := "channel", defValue := "stage", target := some .channel,
                 required := false } := by decide
      simp only [hfind]
    rw [hone]
    rfl
  · intro hall f hf
    have h := (parseArgs_keeps _ init.flags f hf).1 (by
      intro a ha
      rcases List.mem_cons.mp ha with rfl | ha
      · intro hc
        have hc2 : "channel" = "managed-tenants-origin" := hc
        exact absurd hc2 (by decide)
      · exact hall a ha)
    exact h.trans (by decide)
  · intro hall f hf
    have h := (parseArgs_keeps _ init.flags f hf).2 (by
      intro a ha
      rcases List.mem_cons.mp ha with rfl | ha
      · intro hc
        have hc2 : "channel" = "managed-tenants-fork" := hc
        exact absurd hc2 (by decide)
      · exact hall a ha)
    exact h.trans (by decide)

/-- C11, witness: with `--channel stable` and the three required flags, and
neither repository set on the command line, the origin and the fork are the
`-bundles` repositories. -/
theorem init_defaults_ignore_channel_witness :
    flagsFor [("channel", "stable"), ("name", "managed-api-service"), ("version", "1.2.3"),
        ("addons-config", "addons.yaml")] =
      .ok { version := "1.2.3", channel := "stable", mergeRequestDescription := "",
            managedTenantsOrigin := "service/managed-tenants-bundles",
            managedTenantsFork := "integreatly-qe/managed-tenants-bundles",
            addonName := "managed-api-service", addonsConfig := "addons.yaml" } ∧
    (∀ f, flagsFor [("channel", "stable"), ("name", "managed-api-service"), ("version", "1.2.3"),
        ("addons-config", "addons.yaml")] = .ok f →
      f.managedTenantsOrigin = "service/managed-tenants-bundles") ∧
    managedTenantsDefaults "stable" =
      ("service/managed-tenants", "integreatly-qe/managed-tenants") :=
  ⟨by decide,
   (init_defaults_ignore_channel "stable"
      [("name", "managed-api-service"), ("version", "1.2.3"),
       ("addons-config", "addons.yaml")]).2.2.2.2.2.2.1 (by decide),
   by decide⟩

end Delorean
